import Mathlib

/-!
# qtmozembed: the private view object of the Gecko embedding

A shallow embedding of `src/qgraphicsmozview_p.cpp`
(`QGraphicsMozViewPrivate`): the touch translation `touchEvent`, the flick
heuristic `TestFlickingMode`, the chrome thresholding of
`SendAsyncScrollDOMEvent`, the scroll bookkeeping of `UpdateScrollArea` and
the load notifications; and of `src/qmozviewsgnode.cpp`
(`QMozViewSGNode::setRenderer`).

Conventions of the embedding

* `qreal`, `float` and `double` values are rationals and their arithmetic is
  exact; a division by zero, which the C++ code turns into an infinity or a
  NaN, has the value `0` here, so statements about `SendAsyncScrollDOMEvent`
  are meant for content rectangles of non-zero width.
* The object is a record `Members` of the member variables the embedded
  functions read or write.  A `View` pairs it with the trace of the calls the
  object has made so far on `mViewIface`, on `mView` and on itself
  (`ReceiveInputEvent`); every trace entry carries the member values at the
  moment of the call.
* Member functions take the view first and return the view they leave behind.
-/

namespace MozView

/-! ## Toolkit value types -/

/-- The toolkit's `QPointF`. -/
structure QPointF where
  xp : Rat
  yp : Rat
deriving DecidableEq

/-- The default constructed `QPointF()`. -/
def QPointF.null : QPointF := ⟨0, 0⟩

/-- `QPointF::isNull`: both coordinates are zero. -/
def QPointF.isNull (p : QPointF) : Bool := p.xp == 0 && p.yp == 0

/-- The toolkit's `QSizeF`. -/
structure QSizeF where
  wd : Rat
  ht : Rat
deriving DecidableEq

/-- The toolkit's `QRectF`, also used for the engine's `gfxRect`. -/
structure QRectF where
  xp : Rat
  yp : Rat
  w : Rat
  h : Rat
deriving DecidableEq

/-- `Qt::TouchPointState` as seen by the `switch` of `touchEvent`: the four
named states and everything else, which takes the `default` branch. -/
inductive TouchPointState where
  | TouchPointPressed
  | TouchPointMoved
  | TouchPointStationary
  | TouchPointReleased
  | otherState
deriving DecidableEq

/-- `QTouchEvent::TouchPoint`, with the accessors the code uses. -/
structure TouchPoint where
  id : Int
  pos : QPointF
  rect : QRectF
  state : TouchPointState
  pressure : Rat
deriving DecidableEq

/-- `QEvent::Type` as seen by the `if` chains of the code. -/
inductive EventType where
  | TouchBegin
  | TouchUpdate
  | TouchEnd
  | TouchCancel
  | otherType
deriving DecidableEq

/-- The toolkit's `QTouchEvent`. -/
structure QTouchEvent where
  type : EventType
  timestamp : Int
  touchPoints : List TouchPoint
deriving DecidableEq

/-- `current_timestamp` for a non-null event: the event's own time stamp
(every caller in this file passes the event it has already dereferenced). -/
def current_timestamp (aEvent : QTouchEvent) : Int := aEvent.timestamp

/-! ## Engine input types -/

/-- Conversion of a real to a C++ `int`: the fraction is dropped (rounding
towards zero).  Values outside the range of `int` are undefined in C++ and
are kept as they are here. -/
def truncToInt (q : Rat) : Int := Int.tdiv q.num q.den

/-- Conversion of a real to `unsigned int`: the fraction is dropped.  Negative
and too large values are undefined in C++; here they are reduced modulo
`2 ^ 32`. -/
def truncToUInt (q : Rat) : Nat := (truncToInt q % (2 ^ 32 : Int)).toNat

/-- `mozilla::ScreenIntPoint`. -/
structure ScreenIntPoint where
  x : Int
  y : Int
deriving DecidableEq

/-- `mozilla::ScreenIntPoint(x, y)` applied to real arguments. -/
def ScreenIntPoint.ofReal (x y : Rat) : ScreenIntPoint := ⟨truncToInt x, truncToInt y⟩

/-- `SingleTouchData`: identifier, screen point, radius, rotation angle and
force, in the order of the constructor's arguments. -/
structure SingleTouchData where
  mIdentifier : Int
  mScreenPoint : ScreenIntPoint
  mRadius : Rat × Rat
  mRotationAngle : Rat
  mForce : Rat
deriving DecidableEq

/-- `MultiTouchInput::MultiTouchType`, the three values the code uses. -/
inductive MultiTouchType where
  | MULTITOUCH_START
  | MULTITOUCH_MOVE
  | MULTITOUCH_END
deriving DecidableEq

/-- `MultiTouchInput`: type, time and the array `mTouches`. -/
structure MultiTouchInput where
  mType : MultiTouchType
  mTime : Int
  mTouches : List SingleTouchData
deriving DecidableEq

/-! ## The map of active touch points

`QMap<int, QPointF>` is a container of the toolkit: one value per key,
iterated in ascending key order.  It is represented by its list of entries in
iteration order. -/

/-- The entries of a `QMap<int, QPointF>` in iteration order. -/
abbrev QMap := List (Int × QPointF)

/-- `QMap::insert`: the value of an existing key is replaced, a new key is
placed so that the keys stay ascending. -/
def QMap.insert : QMap → Int → QPointF → QMap
  | [], k, v => [(k, v)]
  | (k', v') :: rest, k, v =>
      if k < k' then (k, v) :: (k', v') :: rest
      else if k = k' then (k, v) :: rest
      else (k', v') :: QMap.insert rest k v

/-- `QMap::remove`: the entry of the key, if any, is dropped. -/
def QMap.remove (m : QMap) (k : Int) : QMap := m.filter (fun e => decide (e.1 ≠ k))

/-- `QMap::value` as an option: the value stored for the key. -/
def QMap.value (m : QMap) (k : Int) : Option QPointF :=
  (m.find? (fun e => decide (e.1 = k))).map Prod.snd

/-- Well-formed maps: the keys are strictly ascending. -/
def QMap.WF (m : QMap) : Prop := List.Pairwise (fun a b => a.1 < b.1) m

instance QMap.decidableWF (m : QMap) : Decidable (QMap.WF m) :=
  inferInstanceAs (Decidable (List.Pairwise (fun (a b : Int × QPointF) => a.1 < b.1) m))

/-! ## The object -/

/-- A scroll decorator (`QMozScrollDecorator`, a class declared outside these
sources): the values last handed to `setMoving`, `setSize`, `setPosition`. -/
structure ScrollDecorator where
  moving : Bool
  size : Rat
  position : Rat
deriving DecidableEq

/-- The member variables of `QGraphicsMozViewPrivate` used by the embedded
functions. -/
structure Members where
  mViewInitialized : Bool
  mEnabled : Bool
  mChromeGestureEnabled : Bool
  mChromeGestureThreshold : Rat
  mChrome : Bool
  mMoveDelta : Rat
  mDragStartY : Rat
  mMoving : Bool
  mPinching : Bool
  mLastTimestamp : Int
  mLastStationaryTimestamp : Int
  mCanFlick : Bool
  mPendingTouchEvent : Bool
  mProgress : Int
  mIsLoading : Bool
  mContentRect : QRectF
  mScrollableSize : QSizeF
  mScrollableOffset : QPointF
  mContentResolution : Rat
  mIsPainted : Bool
  mSize : QSizeF
  mDragging : Bool
  mFlicking : Bool
  mLastPos : QPointF
  mLastStationaryPos : QPointF
  mActiveTouchPoints : QMap
  mVerticalScrollDecorator : ScrollDecorator
  mHorizontalScrollDecorator : ScrollDecorator
deriving DecidableEq

/-- The calls the object makes: the notifications on `mViewIface`, the
acceptance of the event, its own `ReceiveInputEvent` and the forwarding of an
input to the engine view `mView`. -/
inductive Call where
  | scrollableOffsetChanged
  | contentWidthChanged
  | contentHeightChanged
  | movingChanged
  | viewAreaChanged
  | chromeChanged
  | forceViewActiveFocus
  | draggingChanged
  | pinchingChanged
  | startMoveMonitoring
  | setAccepted (accepted : Bool)
  | ReceiveInputEvent (event : MultiTouchInput)
  | viewReceiveInputEvent (event : MultiTouchInput)
  | loadProgressChanged
  | loadingChanged
  | firstPaint (aX aY : Int)
deriving DecidableEq

/-- The object together with the trace of its calls, oldest first. -/
structure View where
  m : Members
  trace : List (Call × Members)
deriving DecidableEq

/-- The calls made so far, without the member snapshots. -/
def View.calls (v : View) : List Call := v.trace.map Prod.fst

/-- Make a call: it is appended to the trace with the current members. -/
def View.emit (v : View) (c : Call) : View :=
  { v with trace := v.trace ++ [(c, v.m)] }

/-- The calls made between two views of one run. -/
def newCalls (before after : View) : List Call :=
  after.calls.drop before.calls.length

/-- The trace entries added between two views of one run. -/
def newTrace (before after : View) : List (Call × Members) :=
  after.trace.drop before.trace.length

/-! ## State helpers (lines 186-222) -/

/-- `UpdateMoving` (lines 216-222): `movingChanged` is sent when the value
changes. -/
def UpdateMoving (v : View) (moving : Bool) : View :=
  if v.m.mMoving ≠ moving then
    View.emit { v with m := { v.m with mMoving := moving } } Call.movingChanged
  else v

/-- `ResetState` (lines 204-214). -/
def ResetState (v : View) : View :=
  let v1 : View :=
    { v with m := { v.m with mDragStartY := -1, mMoveDelta := 0, mFlicking := false } }
  let v2 := UpdateMoving v1 false
  { v2 with m := { v2.m with
      mVerticalScrollDecorator := { v2.m.mVerticalScrollDecorator with moving := false },
      mHorizontalScrollDecorator := { v2.m.mHorizontalScrollDecorator with moving := false } } }

/-- `HandleTouchEnd` (lines 186-202); the two reference parameters are
returned next to the view. -/
def HandleTouchEnd (v : View) (draggingChanged pinchingChanged : Bool) : View × Bool × Bool :=
  let v1 : View := if v.m.mDragging then { v with m := { v.m with mDragging := false } } else v
  let dc := if v.m.mDragging then true else draggingChanged
  let v2 : View := if v1.m.mPinching then { v1 with m := { v1.m with mPinching := false } } else v1
  let pc := if v1.m.mPinching then true else pinchingChanged
  (v2, dc, pc)

/-! ## Flick heuristic (lines 148-184) -/

/-- The build-time constant `MOZVIEW_FLICK_THRESHOLD`, at its default. -/
def MOZVIEW_FLICK_THRESHOLD : Int := 200

/-- The point `touchPoints().at(i)`; outside the list (where `QList::at` is
undefined) a point of zeros. -/
def QTouchEvent.at (event : QTouchEvent) (i : Nat) : TouchPoint :=
  event.touchPoints.getD i
    ⟨0, QPointF.null, ⟨0, 0, 0, 0⟩, TouchPointState.otherState, 0⟩

/-- The `TouchUpdate` branch of `TestFlickingMode` (lines 157-176). -/
def flickOnUpdate (m : Members) (event : QTouchEvent) (touchPoint : QPointF) : Members :=
  let pressArea := (event.at 0).rect
  let touchHorizontalThreshold := pressArea.w * 2
  let touchVerticalThreshold := pressArea.h * 2
  let m1 : Members :=
    if !m.mLastStationaryPos.isNull
        ∧ (|m.mLastStationaryPos.xp - touchPoint.xp| > touchHorizontalThreshold
          ∨ |m.mLastStationaryPos.yp - touchPoint.yp| > touchVerticalThreshold) then
      { m with mLastStationaryTimestamp := current_timestamp event,
               mLastStationaryPos := touchPoint }
    else if |m.mLastPos.xp - touchPoint.xp| ≤ touchHorizontalThreshold
        ∧ |m.mLastPos.yp - touchPoint.yp| ≤ touchVerticalThreshold then
      let m2 : Members :=
        if m.mCanFlick then
          { m with mLastStationaryTimestamp := current_timestamp event,
                   mLastStationaryPos := touchPoint }
        else m
      { m2 with mCanFlick := false }
    else
      { m with mCanFlick := true }
  { m1 with mLastTimestamp := current_timestamp event }

/-- `TestFlickingMode` (lines 148-184). -/
def TestFlickingMode (v : View) (event : QTouchEvent) : View :=
  let touchPoint : QPointF :=
    if event.touchPoints.length = 1 then (event.at 0).pos else QPointF.null
  let m := v.m
  let m1 : Members :=
    if !touchPoint.isNull then
      if event.type = EventType.TouchBegin then
        { m with mLastTimestamp := current_timestamp event,
                 mLastStationaryTimestamp := current_timestamp event,
                 mCanFlick := true }
      else if event.type = EventType.TouchUpdate ∧ !m.mLastPos.isNull then
        flickOnUpdate m event touchPoint
      else if event.type = EventType.TouchEnd then
        { m with
            mCanFlick :=
              decide (current_timestamp event - m.mLastTimestamp < MOZVIEW_FLICK_THRESHOLD)
              && decide (current_timestamp event - m.mLastStationaryTimestamp
                          < MOZVIEW_FLICK_THRESHOLD),
            mLastStationaryPos := QPointF.null }
      else m
    else m
  { v with m := { m1 with mLastPos := touchPoint } }

/-! ## Touch translation (lines 561-711) -/

/-- `ReceiveInputEvent` (lines 706-711): the input is forwarded to the engine
view when the view is initialised.  The call itself is traced too. -/
def ReceiveInputEvent (v : View) (event : MultiTouchInput) : View :=
  let v1 := v.emit (Call.ReceiveInputEvent event)
  if v1.m.mViewInitialized then v1.emit (Call.viewReceiveInputEvent event) else v1

/-- The local variables of `touchEvent` after its first block. -/
structure Dispatch where
  v : View
  draggingChanged : Bool
  pinchingChanged : Bool
  testFlick : Bool

/-- The first block of `touchEvent` (lines 566-599), by event type.  The
`Q_ASSERT`s are those of a release build: they do nothing. -/
def touchDispatch (v : View) (event : QTouchEvent) : Dispatch :=
  let touchPointsCount := event.touchPoints.length
  if event.type = EventType.TouchBegin then
    let v1 := v.emit Call.forceViewActiveFocus
    let pinch : Bool := decide (touchPointsCount > 1) && !v1.m.mPinching
    let v2 : View := if pinch then { v1 with m := { v1.m with mPinching := true } } else v1
    ⟨ResetState v2, false, pinch, true⟩
  else if event.type = EventType.TouchUpdate then
    let drag : Bool := !v.m.mDragging
    let v1 : View :=
      if drag then
        { v with m := { v.m with
            mDragging := true,
            mDragStartY := v.m.mContentRect.yp * v.m.mContentResolution,
            mMoveDelta := 0 } }
      else v
    let pinch : Bool := decide (touchPointsCount > 1) && !v1.m.mPinching
    let v2 : View := if pinch then { v1 with m := { v1.m with mPinching := true } } else v1
    ⟨v2, drag, pinch, true⟩
  else if event.type = EventType.TouchEnd then
    let r := HandleTouchEnd v false false
    ⟨r.1, r.2.1, r.2.2, true⟩
  else if event.type = EventType.TouchCancel then
    let r := HandleTouchEnd v false false
    ⟨{ r.1 with m := { r.1.m with mCanFlick := false } }, r.2.1, r.2.2, false⟩
  else
    ⟨v, false, false, true⟩

/-- The three inputs built by `touchEvent`. -/
structure TouchInputs where
  meventStart : MultiTouchInput
  meventMove : MultiTouchInput
  meventEnd : MultiTouchInput
deriving DecidableEq

/-- The three empty inputs of lines 605-608. -/
def TouchInputs.init (timeStamp : Int) : TouchInputs :=
  ⟨⟨MultiTouchType.MULTITOUCH_START, timeStamp, []⟩,
   ⟨MultiTouchType.MULTITOUCH_MOVE, timeStamp, []⟩,
   ⟨MultiTouchType.MULTITOUCH_END, timeStamp, []⟩⟩

/-- `SingleTouchData(id, point, ScreenSize(1, 1), 180.0f, force)` as the code
builds it everywhere. -/
def mkTouch (id : Int) (pos : QPointF) (force : Rat) : SingleTouchData :=
  ⟨id, ScreenIntPoint.ofReal pos.xp pos.yp, (1, 1), 180, force⟩

/-- `AppendElement` on the array of an input. -/
def MultiTouchInput.append (i : MultiTouchInput) (t : SingleTouchData) : MultiTouchInput :=
  { i with mTouches := i.mTouches ++ [t] }

/-- One round of the iterator loop of lines 613-621. -/
def cancelStep (meventEnd : MultiTouchInput) (entry : Int × QPointF) : MultiTouchInput :=
  meventEnd.append (mkTouch entry.1 entry.2 0)

/-- The cancelled-sequence block (lines 610-624). -/
def cancelBlock (v : View) (event : QTouchEvent) (t : TouchInputs) : View × TouchInputs :=
  if event.type = EventType.TouchCancel ∧ event.touchPoints.length = 0 then
    ({ v with m := { v.m with mActiveTouchPoints := [] } },
     { t with meventEnd := v.m.mActiveTouchPoints.foldl cancelStep t.meventEnd })
  else (v, t)

/-- One round of the loop over the touch points (lines 627-660). -/
def routePoint (s : View × TouchInputs) (pt : TouchPoint) : View × TouchInputs :=
  let v := s.1
  let t := s.2
  match pt.state with
  | TouchPointState.TouchPointPressed =>
      ({ v with m := { v.m with
           mActiveTouchPoints := QMap.insert v.m.mActiveTouchPoints pt.id pt.pos } },
       { t with meventStart := t.meventStart.append (mkTouch pt.id pt.pos pt.pressure) })
  | TouchPointState.TouchPointReleased =>
      ({ v with m := { v.m with
           mActiveTouchPoints := QMap.remove v.m.mActiveTouchPoints pt.id } },
       { t with meventEnd := t.meventEnd.append (mkTouch pt.id pt.pos pt.pressure) })
  | TouchPointState.TouchPointMoved =>
      ({ v with m := { v.m with
           mActiveTouchPoints := QMap.insert v.m.mActiveTouchPoints pt.id pt.pos } },
       { t with meventMove := t.meventMove.append (mkTouch pt.id pt.pos pt.pressure) })
  | TouchPointState.TouchPointStationary =>
      ({ v with m := { v.m with
           mActiveTouchPoints := QMap.insert v.m.mActiveTouchPoints pt.id pt.pos } },
       { t with meventMove := t.meventMove.append (mkTouch pt.id pt.pos pt.pressure) })
  | TouchPointState.otherState => (v, t)

/-- Lines 605-661: the inputs and the map after the cancel block and the loop
over the touch points of the event. -/
def buildInputs (v : View) (event : QTouchEvent) : View × TouchInputs :=
  event.touchPoints.foldl routePoint
    (cancelBlock v event (TouchInputs.init (current_timestamp event)))

/-- Lines 663-683: the non-empty inputs are handed to `ReceiveInputEvent`. -/
def sendInputs (v : View) (t : TouchInputs) : View :=
  let v1 : View :=
    if t.meventStart.mTouches.length ≠ 0 then
      let meventStart : MultiTouchInput :=
        if t.meventMove.mTouches.length ≠ 0 then
          { t.meventStart with mTouches := t.meventStart.mTouches ++ t.meventMove.mTouches }
        else t.meventStart
      ReceiveInputEvent v meventStart
    else v
  let v2 : View :=
    if t.meventMove.mTouches.length ≠ 0 then ReceiveInputEvent v1 t.meventMove else v1
  if t.meventEnd.mTouches.length ≠ 0 then ReceiveInputEvent v2 t.meventEnd else v2

/-- Lines 685-703: the change notifications and the moving state. -/
def touchFinish (v : View) (event : QTouchEvent) (draggingChanged pinchingChanged : Bool) : View :=
  let v1 := if draggingChanged then v.emit Call.draggingChanged else v
  let v2 := if pinchingChanged then v1.emit Call.pinchingChanged else v1
  if event.type = EventType.TouchEnd then
    if v2.m.mCanFlick then
      (UpdateMoving v2 v2.m.mCanFlick).emit Call.startMoveMonitoring
    else
      ResetState v2
  else
    UpdateMoving v2 v2.m.mDragging

/-- `touchEvent` (lines 561-704). -/
def touchEvent (v : View) (event : QTouchEvent) : View :=
  let v0 : View := { v with m := { v.m with mPendingTouchEvent := true } }
  let v1 := v0.emit (Call.setAccepted true)
  let d := touchDispatch v1 event
  let v2 := if d.testFlick then TestFlickingMode d.v event else d.v
  let b := buildInputs v2 event
  let v3 := sendInputs b.1 b.2
  touchFinish v3 event d.draggingChanged d.pinchingChanged

/-! ## Scroll notifications (lines 95-146 and 489-535)

`gfx::FuzzyEqual` belongs to the engine; the functions below take it as the
parameter `FuzzyEqual`. -/

/-- The constant `SCROLL_EPSILON`. -/
def SCROLL_EPSILON : Rat := 1 / 1000

/-- The decorator updates of lines 117-136, made when the view is enabled. -/
def updateDecorators (m : Members) : Members :=
  let ySizeRate := m.mContentRect.h * m.mContentResolution / m.mScrollableSize.ht
  let xSizeRate := m.mContentRect.w * m.mContentResolution / m.mScrollableSize.wd
  { m with
    mVerticalScrollDecorator :=
      ⟨true, m.mSize.ht * ySizeRate, m.mScrollableOffset.yp * ySizeRate⟩,
    mHorizontalScrollDecorator :=
      ⟨true, m.mSize.wd * xSizeRate, m.mScrollableOffset.xp * xSizeRate⟩ }

/-- `UpdateScrollArea` (lines 95-146). -/
def UpdateScrollArea (FuzzyEqual : Rat → Rat → Rat → Bool) (v : View)
    (aWidth aHeight : Nat) (aPosX aPosY : Rat) : View :=
  let widthChanged : Bool := decide (v.m.mScrollableSize.wd ≠ (aWidth : Rat))
  let v1 : View :=
    if widthChanged then
      { v with m := { v.m with mScrollableSize := { v.m.mScrollableSize with wd := aWidth } } }
    else v
  let heightChanged : Bool := decide (v1.m.mScrollableSize.ht ≠ (aHeight : Rat))
  let v2 : View :=
    if heightChanged then
      { v1 with m := { v1.m with mScrollableSize := { v1.m.mScrollableSize with ht := aHeight } } }
    else v1
  let v3 : View :=
    if !FuzzyEqual v2.m.mScrollableOffset.xp aPosX SCROLL_EPSILON
        ∨ !FuzzyEqual v2.m.mScrollableOffset.yp aPosY SCROLL_EPSILON then
      let v4 : View := { v2 with m := { v2.m with mScrollableOffset := ⟨aPosX, aPosY⟩ } }
      let v5 := v4.emit Call.scrollableOffsetChanged
      if v5.m.mEnabled then { v5 with m := updateDecorators v5.m } else v5
    else v2
  let v6 := if widthChanged then v3.emit Call.contentWidthChanged else v3
  if heightChanged then v6.emit Call.contentHeightChanged else v6

/-- The chrome gesture block of `SendAsyncScrollDOMEvent` (lines 504-528). -/
def chromeGesture (v : View) (aContentRect : QRectF) : View :=
  if v.m.mEnabled ∧ v.m.mChromeGestureEnabled ∧ v.m.mDragStartY ≥ 0 then
    let offset := aContentRect.yp * v.m.mContentResolution
    let currentDelta := offset - v.m.mDragStartY
    let v1 : View :=
      if |currentDelta| < v.m.mMoveDelta then
        { v with m := { v.m with mDragStartY := offset } }
      else v
    let v2 : View :=
      if currentDelta > v1.m.mChromeGestureThreshold then
        if v1.m.mChrome then
          View.emit { v1 with m := { v1.m with mChrome := false } } Call.chromeChanged
        else v1
      else if currentDelta < -v1.m.mChromeGestureThreshold then
        if !v1.m.mChrome then
          View.emit { v1 with m := { v1.m with mChrome := true } } Call.chromeChanged
        else v1
      else v1
    { v2 with m := { v2.m with mMoveDelta := |currentDelta| } }
  else v

/-- The first part of `SendAsyncScrollDOMEvent` (lines 491-529): the
resolution, and for a changed content rectangle its storing, the
`viewAreaChanged` call and the chrome gesture block. -/
def contentRectBlock (v : View) (aContentRect : QRectF) : View :=
  let v1 : View :=
    { v with m := { v.m with mContentResolution := v.m.mSize.wd / aContentRect.w } }
  if v1.m.mContentRect.xp ≠ aContentRect.xp ∨ v1.m.mContentRect.yp ≠ aContentRect.yp
      ∨ v1.m.mContentRect.w ≠ aContentRect.w ∨ v1.m.mContentRect.h ≠ aContentRect.h then
    let v3 : View :=
      { v1 with m := { v1.m with
          mContentRect := ⟨aContentRect.xp, aContentRect.yp, aContentRect.w, aContentRect.h⟩ } }
    chromeGesture (v3.emit Call.viewAreaChanged) aContentRect
  else v1

/-- `SendAsyncScrollDOMEvent` (lines 489-535); its result, always `false`, is
left out. -/
def SendAsyncScrollDOMEvent (FuzzyEqual : Rat → Rat → Rat → Bool) (v : View)
    (aContentRect : QRectF) (aScrollableSize : QSizeF) : View :=
  let v2 := contentRectBlock v aContentRect
  UpdateScrollArea FuzzyEqual v2
    (truncToUInt (aScrollableSize.wd * v2.m.mContentResolution))
    (truncToUInt (aScrollableSize.ht * v2.m.mContentResolution))
    (aContentRect.xp * v2.m.mContentResolution)
    (aContentRect.yp * v2.m.mContentResolution)

/-- A run of `SendAsyncScrollDOMEvent` calls, first call first. -/
def scrollRun (FuzzyEqual : Rat → Rat → Rat → Bool) (v : View)
    (reports : List (QRectF × QSizeF)) : View :=
  reports.foldl (fun s r => SendAsyncScrollDOMEvent FuzzyEqual s r.1 r.2) v

/-! ## What the claims speak about -/

/-- The touch a routed point becomes: its id, its position with the fractions
dropped, radius `(1, 1)`, angle `180` and its pressure. -/
def touchOf (pt : TouchPoint) : SingleTouchData :=
  { mIdentifier := pt.id,
    mScreenPoint := { x := truncToInt pt.pos.xp, y := truncToInt pt.pos.yp },
    mRadius := (1, 1),
    mRotationAngle := 180,
    mForce := pt.pressure }

/-- The points of the event in one of the given states, in event order, as
touches. -/
def routed (states : List TouchPointState) (event : QTouchEvent) : List SingleTouchData :=
  (event.touchPoints.filter (fun pt => decide (pt.state ∈ states))).map touchOf

/-- The touches of a cancelled sequence: one per entry of the map, in the
order of the map, with the fractions of the position dropped and force `0`. -/
def cancelledTouches (active : QMap) : List SingleTouchData :=
  active.map (fun entry =>
    { mIdentifier := entry.1,
      mScreenPoint := { x := truncToInt entry.2.xp, y := truncToInt entry.2.yp },
      mRadius := (1, 1),
      mRotationAngle := 180,
      mForce := 0 })

/-- The touches the cancel block puts into the end input before the loop. -/
def cancelPrefix (active : QMap) (event : QTouchEvent) : List SingleTouchData :=
  if event.type = EventType.TouchCancel ∧ event.touchPoints.length = 0 then
    cancelledTouches active
  else []

/-- The inputs among a list of calls that went to `ReceiveInputEvent`. -/
def inputsOf (calls : List Call) : List MultiTouchInput :=
  calls.filterMap (fun c =>
    match c with
    | Call.ReceiveInputEvent i => some i
    | _ => none)

/-- The calls of `touchEvent` before the inputs are sent. -/
def dispatchCalls (m : Members) (event : QTouchEvent) : List Call :=
  Call.setAccepted true
    :: (if event.type = EventType.TouchBegin then
          Call.forceViewActiveFocus :: (if m.mMoving = true then [Call.movingChanged] else [])
        else [])

/-- The view on which `touchEvent` builds and sends its inputs. -/
def beforeInputs (v : View) (event : QTouchEvent) : View :=
  let d := touchDispatch
    (View.emit { v with m := { v.m with mPendingTouchEvent := true } } (Call.setAccepted true))
    event
  if d.testFlick then TestFlickingMode d.v event else d.v

/-- The calls of the last block of `touchEvent`. -/
def finishCalls (m : Members) (event : QTouchEvent) (draggingChanged pinchingChanged : Bool) :
    List Call :=
  (if draggingChanged then [Call.draggingChanged] else [])
    ++ (if pinchingChanged then [Call.pinchingChanged] else [])
    ++ (if event.type = EventType.TouchEnd then
          (if m.mCanFlick then
            (if m.mMoving = true then [] else [Call.movingChanged])
              ++ [Call.startMoveMonitoring]
           else (if m.mMoving = true then [Call.movingChanged] else []))
        else (if m.mMoving = m.mDragging then [] else [Call.movingChanged]))

/-- The active touch points as the claim words them, a position per id: a
Pressed, Moved or Stationary point records its position under its id (over
any earlier one), a Released point removes its id, other points change
nothing. -/
def recordPoint (f : Int → Option QPointF) (pt : TouchPoint) : Int → Option QPointF :=
  match pt.state with
  | TouchPointState.TouchPointPressed => Function.update f pt.id (some pt.pos)
  | TouchPointState.TouchPointMoved => Function.update f pt.id (some pt.pos)
  | TouchPointState.TouchPointStationary => Function.update f pt.id (some pt.pos)
  | TouchPointState.TouchPointReleased => Function.update f pt.id none
  | TouchPointState.otherState => f

/-- The claim's `currentDelta`: the reported offset `aContentRect.y *
resolution`, with `resolution = mSize.width / aContentRect.width`, minus the
drag start the object holds before the call. -/
def currentDelta (m : Members) (aContentRect : QRectF) : Rat :=
  aContentRect.yp * (m.mSize.wd / aContentRect.w) - m.mDragStartY

/-- The chrome value the claim gives for a delta: `false` above the
threshold, otherwise `true` below its negative, otherwise the old value. -/
def chromeAfter (m : Members) (delta : Rat) : Bool :=
  if delta > m.mChromeGestureThreshold then false
  else if delta < -m.mChromeGestureThreshold then true
  else m.mChrome

/-- The offset a report stands for in view coordinates: `aContentRect.y *
resolution` with `resolution = mSize.width / aContentRect.width`. -/
def reportedOffset (m : Members) (aContentRect : QRectF) : Rat :=
  aContentRect.yp * (m.mSize.wd / aContentRect.w)

/-- The calls that hand over an input. -/
def Call.isInput : Call → Bool
  | Call.ReceiveInputEvent _ => true
  | Call.viewReceiveInputEvent _ => true
  | _ => false

/-- The pinching state the claim gives after an event: a TouchBegin or
TouchUpdate with more than one point switches it on and otherwise keeps it, a
TouchEnd or TouchCancel switches it off, anything else keeps it. -/
def pinchingAfter (before : Bool) (event : QTouchEvent) : Bool :=
  if event.type = EventType.TouchBegin ∨ event.type = EventType.TouchUpdate then
    before || decide (1 < event.touchPoints.length)
  else if event.type = EventType.TouchEnd ∨ event.type = EventType.TouchCancel then false
  else before

/-! ## Concrete objects -/

/-- The members as the constructor leaves them (lines 43-83); members without
an initialiser are default constructed (`QSizeF()` is `(-1, -1)`, points are
null, the map is empty, the decorators are at rest). -/
def constructed : Members :=
  { mViewInitialized := false, mEnabled := true, mChromeGestureEnabled := true,
    mChromeGestureThreshold := 0, mChrome := true, mMoveDelta := 0, mDragStartY := 0,
    mMoving := false, mPinching := false, mLastTimestamp := 0, mLastStationaryTimestamp := 0,
    mCanFlick := false, mPendingTouchEvent := false, mProgress := 0, mIsLoading := false,
    mContentRect := ⟨0, 0, 0, 0⟩, mScrollableSize := ⟨0, 0⟩, mScrollableOffset := ⟨0, 0⟩,
    mContentResolution := 0, mIsPainted := false, mSize := ⟨-1, -1⟩, mDragging := false,
    mFlicking := false, mLastPos := QPointF.null, mLastStationaryPos := QPointF.null,
    mActiveTouchPoints := [], mVerticalScrollDecorator := ⟨false, 0, 0⟩,
    mHorizontalScrollDecorator := ⟨false, 0, 0⟩ }

/-- The engine's `gfx::FuzzyEqual`, for concrete runs: the values differ by at
most the error. -/
def gfxFuzzyEqual (a b err : Rat) : Bool := decide (a + err ≥ b ∧ a - err ≤ b)

/-- A view of 100 by 200 showing content at offset 100, in a drag that started
there, with a chrome gesture threshold of 10. -/
def draggedView : View :=
  { m := { constructed with
      mSize := ⟨100, 200⟩, mChromeGestureThreshold := 10, mContentResolution := 1,
      mContentRect := ⟨0, 100, 100, 200⟩, mDragStartY := 100, mDragging := true,
      mMoving := true },
    trace := [] }

/-- The report of the content rectangle at vertical offset `y` for a view of
100 by 200 over a page of 100 by 1000. -/
def reportAt (y : Rat) : QRectF × QSizeF := (⟨0, y, 100, 200⟩, ⟨100, 1000⟩)

/-- A view with two active touch points, ids 1 and 4. -/
def twoFingerView : View :=
  { m := { constructed with
      mActiveTouchPoints := [(1, ⟨3 / 2, 5⟩), (4, ⟨-7 / 2, 8⟩)], mPinching := true,
      mDragging := true, mMoving := true },
    trace := [] }

/-- A touch point of finger `id` at `(x, y)` in the given state, with a press
area of 8 by 8 around it and full pressure. -/
def touchAt (id : Int) (x y : Rat) (state : TouchPointState) : TouchPoint :=
  ⟨id, ⟨x, y⟩, ⟨x - 4, y - 4, 8, 8⟩, state, 1⟩

/-- The object after a press at `(5, 5)` at time 1000 and an update at the
same place at time 1050, starting from the constructed object. -/
def pressedAndHeld : View :=
  touchEvent
    (touchEvent ⟨constructed, []⟩
      ⟨EventType.TouchBegin, 1000, [touchAt 0 5 5 TouchPointState.TouchPointPressed]⟩)
    ⟨EventType.TouchUpdate, 1050, [touchAt 0 5 5 TouchPointState.TouchPointStationary]⟩

/-- The release of the finger at time 1100 at the origin of the item. -/
def releaseAtOrigin : QTouchEvent :=
  ⟨EventType.TouchEnd, 1100, [touchAt 0 0 0 TouchPointState.TouchPointReleased]⟩

/-- A quick release at `(9, 9)` at time 1060. -/
def quickRelease : QTouchEvent :=
  ⟨EventType.TouchEnd, 1060, [touchAt 0 9 9 TouchPointState.TouchPointReleased]⟩

/-- A view of 100 by 200 showing content at offset 100, at rest, with a chrome
gesture threshold of 10. -/
def restingView : View :=
  { m := { constructed with
      mSize := ⟨100, 200⟩, mChromeGestureThreshold := 10, mContentResolution := 1,
      mContentRect := ⟨0, 100, 100, 200⟩ },
    trace := [] }

/-- A press at `(5, 5)` at time 1000. -/
def pressEvent : QTouchEvent :=
  ⟨EventType.TouchBegin, 1000, [touchAt 0 5 5 TouchPointState.TouchPointPressed]⟩

/-- A move to `(5, 40)` at time 1050. -/
def moveEvent : QTouchEvent :=
  ⟨EventType.TouchUpdate, 1050, [touchAt 0 5 40 TouchPointState.TouchPointMoved]⟩

/-! ## Load notifications (lines 224-230 and 294-322) -/

/-- `ResetPainted` (lines 224-230). -/
def ResetPainted (v : View) : View :=
  if v.m.mIsPainted then
    View.emit { v with m := { v.m with mIsPainted := false } } (Call.firstPaint (-1) (-1))
  else v

/-- `OnLoadProgress` (lines 294-300). -/
def OnLoadProgress (v : View) (aProgress _aCurTotal _aMaxTotal : Int) : View :=
  if v.m.mIsLoading then
    View.emit { v with m := { v.m with mProgress := aProgress } } Call.loadProgressChanged
  else v

/-- `OnLoadStarted` (lines 302-313); the location it is given is unused. -/
def OnLoadStarted (v : View) : View :=
  let v1 := ResetPainted v
  if !v1.m.mIsLoading then
    View.emit { v1 with m := { v1.m with mIsLoading := true, mProgress := 1 } }
      Call.loadingChanged
  else v1

/-- `OnLoadFinished` (lines 315-322). -/
def OnLoadFinished (v : View) : View :=
  if v.m.mIsLoading then
    View.emit { v with m := { v.m with mProgress := 100, mIsLoading := false } }
      Call.loadingChanged
  else v

/-- One of the three load notifications of the engine. -/
inductive LoadCall where
  | started
  | progress (aProgress aCurTotal aMaxTotal : Int)
  | finished
deriving DecidableEq

/-- Deliver one load notification. -/
def loadStep (v : View) (c : LoadCall) : View :=
  match c with
  | LoadCall.started => OnLoadStarted v
  | LoadCall.progress a b t => OnLoadProgress v a b t
  | LoadCall.finished => OnLoadFinished v

/-- Deliver load notifications, first one first. -/
def loadRun (v : View) (calls : List LoadCall) : View := calls.foldl loadStep v

/-- The object right after its construction: the constructed members and no
call made yet. -/
def constructedView : View := ⟨constructed, []⟩

/-! ## The scene graph node (`src/qmozviewsgnode.cpp`)

Objects have an identity, the number of the allocation that made them; a
renderer (`QGraphicsMozViewPrivate*`) is the identity of the object pointed
to, taken to be a live object with an engine view. -/

/-- `MozContentSGNode` (lines 16-52): the node and the renderer it wraps. -/
structure MozContentSGNode where
  addr : Nat
  mPrivate : Nat
deriving DecidableEq

/-- `MozContentSGNode::getPrivate`. -/
def MozContentSGNode.getPrivate (c : MozContentSGNode) : Nat := c.mPrivate

/-- What `setRenderer` does to other objects, in order: the activation of the
engine view of a renderer by the constructor of a contents node (line 21),
and the removal, deletion and appending of a node. -/
inductive SGOp where
  | SetIsActive (renderer : Nat) (active : Bool)
  | removeChildNode (node : Nat)
  | deleteNode (node : Nat)
  | appendChildNode (node : Nat)
deriving DecidableEq

/-- `QMozViewSGNode`: the member `m_contentsNode` (`none` for the null
pointer), the contents nodes among its children in order, the number of
nodes allocated so far, and what it has done so far. -/
structure QMozViewSGNode where
  m_contentsNode : Option MozContentSGNode
  children : List MozContentSGNode
  allocated : Nat
  ops : List SGOp
deriving DecidableEq

/-- The constructor `QMozViewSGNode()` (lines 54-57). -/
def QMozViewSGNode.constructed : QMozViewSGNode := ⟨none, [], 0, []⟩

/-- `QSGNode::removeChildNode`: the node leaves the children. -/
def QMozViewSGNode.removeChildNode (n : QMozViewSGNode) (c : MozContentSGNode) :
    QMozViewSGNode :=
  { n with children := n.children.erase c, ops := n.ops ++ [SGOp.removeChildNode c.addr] }

/-- The statement `delete node`. -/
def QMozViewSGNode.deleteNode (n : QMozViewSGNode) (c : MozContentSGNode) : QMozViewSGNode :=
  { n with ops := n.ops ++ [SGOp.deleteNode c.addr] }

/-- `QSGNode::appendChildNode`: the node becomes the last child. -/
def QMozViewSGNode.appendChildNode (n : QMozViewSGNode) (c : MozContentSGNode) :
    QMozViewSGNode :=
  { n with children := n.children ++ [c], ops := n.ops ++ [SGOp.appendChildNode c.addr] }

/-- `new MozContentSGNode(aPrivate)` (lines 18-22): a fresh node wrapping the
renderer, whose constructor activates the renderer's engine view. -/
def QMozViewSGNode.newContentNode (n : QMozViewSGNode) (aPrivate : Nat) :
    QMozViewSGNode × MozContentSGNode :=
  ({ n with allocated := n.allocated + 1, ops := n.ops ++ [SGOp.SetIsActive aPrivate true] },
   ⟨n.allocated, aPrivate⟩)

/-- `QMozViewSGNode::setRenderer` (lines 59-71). -/
def QMozViewSGNode.setRenderer (n : QMozViewSGNode) (aPrivate : Nat) : QMozViewSGNode :=
  match n.m_contentsNode with
  | some c =>
      if c.getPrivate = aPrivate then n
      else
        let n1 := (n.removeChildNode c).deleteNode c
        let r := n1.newContentNode aPrivate
        QMozViewSGNode.appendChildNode { r.1 with m_contentsNode := some r.2 } r.2
  | none =>
      let r := n.newContentNode aPrivate
      QMozViewSGNode.appendChildNode { r.1 with m_contentsNode := some r.2 } r.2

/-- A run of `setRenderer` calls, first call first. -/
def QMozViewSGNode.setRenderers (n : QMozViewSGNode) (renderers : List Nat) : QMozViewSGNode :=
  renderers.foldl QMozViewSGNode.setRenderer n

/-- The node's contents children are its `m_contentsNode`, if it has one. -/
def QMozViewSGNode.Inv (n : QMozViewSGNode) : Prop :=
  n.children = n.m_contentsNode.toList

instance QMozViewSGNode.decidableInv (n : QMozViewSGNode) : Decidable n.Inv :=
  inferInstanceAs (Decidable (n.children = n.m_contentsNode.toList))

/-! # Theorems -/

set_option maxRecDepth 100000

/-! ## Routing of the touch points -/

theorem foldl_cancelStep (active : QMap) (i : MultiTouchInput) :
    active.foldl cancelStep i
      = { i with mTouches := i.mTouches ++ cancelledTouches active } := by
  induction active generalizing i with
  | nil => simp [cancelledTouches]
  | cons a rest ih =>
    simp [List.foldl_cons, ih, cancelStep, MultiTouchInput.append, mkTouch,
      ScreenIntPoint.ofReal, cancelledTouches]

theorem cancelBlock_inputs (v : View) (event : QTouchEvent) (t : TouchInputs) :
    (cancelBlock v event t).2
      = { t with meventEnd :=
            { t.meventEnd with
              mTouches := t.meventEnd.mTouches ++ cancelPrefix v.m.mActiveTouchPoints event } } := by
  unfold cancelBlock cancelPrefix
  split_ifs <;> simp [foldl_cancelStep]

theorem foldl_routePoint_inputs (pts : List TouchPoint) (s : View × TouchInputs) :
    (pts.foldl routePoint s).2
      = { meventStart :=
            { s.2.meventStart with
              mTouches := s.2.meventStart.mTouches
                ++ (pts.filter (fun pt => decide (pt.state
                      ∈ [TouchPointState.TouchPointPressed]))).map touchOf },
          meventMove :=
            { s.2.meventMove with
              mTouches := s.2.meventMove.mTouches
                ++ (pts.filter (fun pt => decide (pt.state
                      ∈ [TouchPointState.TouchPointMoved,
                         TouchPointState.TouchPointStationary]))).map touchOf },
          meventEnd :=
            { s.2.meventEnd with
              mTouches := s.2.meventEnd.mTouches
                ++ (pts.filter (fun pt => decide (pt.state
                      ∈ [TouchPointState.TouchPointReleased]))).map touchOf } } := by
  induction pts generalizing s with
  | nil => simp
  | cons pt rest ih =>
    rw [List.foldl_cons, ih]
    cases hst : pt.state <;>
      simp [routePoint, hst, MultiTouchInput.append, mkTouch, ScreenIntPoint.ofReal, touchOf,
        List.filter_cons]

theorem buildInputs_inputs (v : View) (event : QTouchEvent) :
    (buildInputs v event).2
      = { meventStart :=
            { mType := MultiTouchType.MULTITOUCH_START,
              mTime := event.timestamp,
              mTouches := routed [TouchPointState.TouchPointPressed] event },
          meventMove :=
            { mType := MultiTouchType.MULTITOUCH_MOVE,
              mTime := event.timestamp,
              mTouches := routed [TouchPointState.TouchPointMoved,
                                  TouchPointState.TouchPointStationary] event },
          meventEnd :=
            { mType := MultiTouchType.MULTITOUCH_END,
              mTime := event.timestamp,
              mTouches := cancelPrefix v.m.mActiveTouchPoints event
                ++ routed [TouchPointState.TouchPointReleased] event } } := by
  unfold buildInputs
  rw [foldl_routePoint_inputs, cancelBlock_inputs]
  simp [TouchInputs.init, current_timestamp, routed]

/-- C1: after the loop of `touchEvent` over the touch points, the start input
holds exactly the Pressed points, the move input exactly the Moved and
Stationary points and the end input (after the touches of a cancelled
sequence, if any) exactly the Released points, each as a touch with the
point's id, truncated position and pressure, in event order; points in any
other state are in none of them. -/
theorem C1_touch_points_routed_by_state (v : View) (event : QTouchEvent) :
    (buildInputs v event).2
      = { meventStart :=
            { mType := MultiTouchType.MULTITOUCH_START,
              mTime := event.timestamp,
              mTouches := routed [TouchPointState.TouchPointPressed] event },
          meventMove :=
            { mType := MultiTouchType.MULTITOUCH_MOVE,
              mTime := event.timestamp,
              mTouches := routed [TouchPointState.TouchPointMoved,
                                  TouchPointState.TouchPointStationary] event },
          meventEnd :=
            { mType := MultiTouchType.MULTITOUCH_END,
              mTime := event.timestamp,
              mTouches := cancelPrefix v.m.mActiveTouchPoints event
                ++ routed [TouchPointState.TouchPointReleased] event } } :=
  buildInputs_inputs v event

/-! ## The calls made by each block -/

@[simp] theorem emit_m (v : View) (c : Call) : (v.emit c).m = v.m := rfl

@[simp] theorem emit_calls (v : View) (c : Call) : (v.emit c).calls = v.calls ++ [c] := by
  simp [View.emit, View.calls]

@[simp] theorem calls_with_m (v : View) (m : Members) :
    View.calls { v with m := m } = v.calls := rfl

theorem newCalls_append (v w : View) (l : List Call) (h : w.calls = v.calls ++ l) :
    newCalls v w = l := by
  simp [newCalls, h]

theorem UpdateMoving_calls (v : View) (moving : Bool) :
    (UpdateMoving v moving).calls
      = v.calls ++ (if v.m.mMoving ≠ moving then [Call.movingChanged] else []) := by
  unfold UpdateMoving
  split_ifs <;> simp

theorem UpdateMoving_m (v : View) (moving : Bool) :
    (UpdateMoving v moving).m = { v.m with mMoving := moving } := by
  unfold UpdateMoving
  split_ifs with h
  · simp
  · have : v.m.mMoving = moving := by simpa using h
    simp [← this]

theorem ResetState_calls (v : View) :
    (ResetState v).calls
      = v.calls ++ (if v.m.mMoving = true then [Call.movingChanged] else []) := by
  simp [ResetState, UpdateMoving_calls]

theorem ResetState_m (v : View) :
    (ResetState v).m
      = { v.m with
          mDragStartY := -1, mMoveDelta := 0, mFlicking := false, mMoving := false,
          mVerticalScrollDecorator := { v.m.mVerticalScrollDecorator with moving := false },
          mHorizontalScrollDecorator :=
            { v.m.mHorizontalScrollDecorator with moving := false } } := by
  simp [ResetState, UpdateMoving_m]

theorem HandleTouchEnd_calls (v : View) (a b : Bool) :
    (HandleTouchEnd v a b).1.calls = v.calls := by
  unfold HandleTouchEnd
  cases h1 : v.m.mDragging <;> cases h2 : v.m.mPinching <;> simp [h1, h2]

theorem HandleTouchEnd_m (v : View) (a b : Bool) :
    (HandleTouchEnd v a b).1.m = { v.m with mDragging := false, mPinching := false } := by
  obtain ⟨m, tr⟩ := v
  cases m
  unfold HandleTouchEnd
  simp only
  split_ifs <;> simp_all

theorem touchDispatch_calls (v : View) (event : QTouchEvent) :
    (touchDispatch v event).v.calls
      = v.calls ++ (if event.type = EventType.TouchBegin then
          Call.forceViewActiveFocus
            :: (if v.m.mMoving = true then [Call.movingChanged] else [])
        else []) := by
  unfold touchDispatch
  cases ht : event.type <;> simp only [reduceCtorEq, if_false, if_true]
  · simp only [ResetState_calls]
    split_ifs <;> simp_all
  · split_ifs <;> simp
  · simp [HandleTouchEnd_calls]
  · simp [HandleTouchEnd_calls]
  · simp

theorem TestFlickingMode_trace (v : View) (event : QTouchEvent) :
    (TestFlickingMode v event).trace = v.trace := rfl

theorem TestFlickingMode_calls (v : View) (event : QTouchEvent) :
    (TestFlickingMode v event).calls = v.calls := rfl

theorem cancelBlock_trace (v : View) (event : QTouchEvent) (t : TouchInputs) :
    (cancelBlock v event t).1.trace = v.trace := by
  unfold cancelBlock
  split_ifs <;> rfl

theorem routePoint_trace (s : View × TouchInputs) (pt : TouchPoint) :
    (routePoint s pt).1.trace = s.1.trace := by
  unfold routePoint
  cases pt.state <;> rfl

theorem foldl_routePoint_trace (pts : List TouchPoint) (s : View × TouchInputs) :
    (pts.foldl routePoint s).1.trace = s.1.trace := by
  induction pts generalizing s with
  | nil => rfl
  | cons pt rest ih => rw [List.foldl_cons, ih, routePoint_trace]

theorem buildInputs_trace (v : View) (event : QTouchEvent) :
    (buildInputs v event).1.trace = v.trace := by
  unfold buildInputs
  rw [foldl_routePoint_trace, cancelBlock_trace]

theorem buildInputs_calls (v : View) (event : QTouchEvent) :
    (buildInputs v event).1.calls = v.calls := by
  simp [View.calls, buildInputs_trace]

/-- The calls of one `ReceiveInputEvent`. -/
theorem ReceiveInputEvent_calls (v : View) (i : MultiTouchInput) :
    (ReceiveInputEvent v i).calls
      = v.calls ++ Call.ReceiveInputEvent i
          :: (if v.m.mViewInitialized = true then [Call.viewReceiveInputEvent i] else []) := by
  unfold ReceiveInputEvent
  simp only [emit_m]
  split_ifs <;> simp

@[simp] theorem ReceiveInputEvent_m (v : View) (i : MultiTouchInput) :
    (ReceiveInputEvent v i).m = v.m := by
  unfold ReceiveInputEvent
  simp only [emit_m]
  split_ifs <;> simp

@[simp] theorem sendInputs_m (v : View) (t : TouchInputs) : (sendInputs v t).m = v.m := by
  unfold sendInputs
  simp only
  split_ifs <;> simp

theorem inputsOf_append (a b : List Call) : inputsOf (a ++ b) = inputsOf a ++ inputsOf b := by
  simp [inputsOf, List.filterMap_append]

theorem inputsOf_ReceiveInputEvent (v : View) (i : MultiTouchInput) :
    inputsOf (ReceiveInputEvent v i).calls = inputsOf v.calls ++ [i] := by
  rw [ReceiveInputEvent_calls, inputsOf_append]
  split_ifs <;> simp [inputsOf]

theorem sendIf_extends (c : Prop) [Decidable c] (v : View) (i : MultiTouchInput) :
    ∃ l, (if c then ReceiveInputEvent v i else v).calls = v.calls ++ l
      ∧ inputsOf l = if c then [i] else [] := by
  by_cases h : c
  · refine ⟨_, by rw [if_pos h]; exact ReceiveInputEvent_calls v i, ?_⟩
    rw [if_pos h]
    split_ifs <;> simp [inputsOf]
  · exact ⟨[], by simp [h], by simp [h, inputsOf]⟩

theorem sendInputs_extends (v : View) (t : TouchInputs) :
    ∃ l, (sendInputs v t).calls = v.calls ++ l
      ∧ inputsOf l
        = (if t.meventStart.mTouches = [] then []
            else [{ t.meventStart with
                    mTouches := t.meventStart.mTouches ++ t.meventMove.mTouches }])
          ++ (if t.meventMove.mTouches = [] then [] else [t.meventMove])
          ++ (if t.meventEnd.mTouches = [] then [] else [t.meventEnd]) := by
  have hstart : (if t.meventMove.mTouches.length ≠ 0 then
        ({ t.meventStart with mTouches := t.meventStart.mTouches ++ t.meventMove.mTouches }
          : MultiTouchInput)
      else t.meventStart)
      = { t.meventStart with mTouches := t.meventStart.mTouches ++ t.meventMove.mTouches } := by
    by_cases hm : t.meventMove.mTouches = [] <;> simp [hm]
  unfold sendInputs
  simp only [hstart]
  obtain ⟨l1, h1, e1⟩ := sendIf_extends (t.meventStart.mTouches.length ≠ 0) v
    { t.meventStart with mTouches := t.meventStart.mTouches ++ t.meventMove.mTouches }
  obtain ⟨l2, h2, e2⟩ := sendIf_extends (t.meventMove.mTouches.length ≠ 0)
    (if t.meventStart.mTouches.length ≠ 0 then
      ReceiveInputEvent v
        { t.meventStart with mTouches := t.meventStart.mTouches ++ t.meventMove.mTouches }
     else v) t.meventMove
  obtain ⟨l3, h3, e3⟩ := sendIf_extends (t.meventEnd.mTouches.length ≠ 0)
    (if t.meventMove.mTouches.length ≠ 0 then
      ReceiveInputEvent
        (if t.meventStart.mTouches.length ≠ 0 then
          ReceiveInputEvent v
            { t.meventStart with mTouches := t.meventStart.mTouches ++ t.meventMove.mTouches }
         else v) t.meventMove
     else
      (if t.meventStart.mTouches.length ≠ 0 then
          ReceiveInputEvent v
            { t.meventStart with mTouches := t.meventStart.mTouches ++ t.meventMove.mTouches }
         else v)) t.meventEnd
  refine ⟨l1 ++ l2 ++ l3, ?_, ?_⟩
  · rw [h3, h2, h1]
    simp
  · rw [inputsOf_append, inputsOf_append, e1, e2, e3]
    simp only [ne_eq, List.length_eq_zero, ite_not]

theorem touchFinish_calls (v : View) (event : QTouchEvent) (dc pc : Bool) :
    (touchFinish v event dc pc).calls = v.calls ++ finishCalls v.m event dc pc := by
  unfold touchFinish finishCalls
  simp only [UpdateMoving_calls, ResetState_calls, emit_calls]
  cases dc <;> cases pc <;> simp <;> split_ifs <;> simp_all [UpdateMoving_calls, ResetState_calls]

theorem inputsOf_finishCalls (m : Members) (event : QTouchEvent) (dc pc : Bool) :
    inputsOf (finishCalls m event dc pc) = [] := by
  unfold finishCalls
  cases dc <;> cases pc <;> simp [inputsOf] <;> split_ifs <;> simp

theorem inputsOf_dispatchCalls (m : Members) (event : QTouchEvent) :
    inputsOf (dispatchCalls m event) = [] := by
  unfold dispatchCalls
  split_ifs <;> simp [inputsOf]

theorem beforeInputs_calls (v : View) (event : QTouchEvent) :
    (beforeInputs v event).calls = v.calls ++ dispatchCalls v.m event := by
  unfold beforeInputs dispatchCalls
  simp only []
  split_ifs <;> simp_all [TestFlickingMode_calls, touchDispatch_calls]

theorem touchEvent_eq (v : View) (event : QTouchEvent) :
    touchEvent v event
      = touchFinish
          (sendInputs (buildInputs (beforeInputs v event) event).1
            (buildInputs (beforeInputs v event) event).2)
          event
          (touchDispatch
            (View.emit { v with m := { v.m with mPendingTouchEvent := true } }
              (Call.setAccepted true)) event).draggingChanged
          (touchDispatch
            (View.emit { v with m := { v.m with mPendingTouchEvent := true } }
              (Call.setAccepted true)) event).pinchingChanged := rfl

/-! ## Members the first blocks leave alone -/

theorem flickOnUpdate_active (m : Members) (event : QTouchEvent) (p : QPointF) :
    (flickOnUpdate m event p).mActiveTouchPoints = m.mActiveTouchPoints := by
  unfold flickOnUpdate
  simp only
  split_ifs <;> rfl

theorem TestFlickingMode_active (v : View) (event : QTouchEvent) :
    (TestFlickingMode v event).m.mActiveTouchPoints = v.m.mActiveTouchPoints := by
  unfold TestFlickingMode
  simp only
  split_ifs <;> first | rfl | exact flickOnUpdate_active _ _ _

theorem touchDispatch_active (v : View) (event : QTouchEvent) :
    (touchDispatch v event).v.m.mActiveTouchPoints = v.m.mActiveTouchPoints := by
  unfold touchDispatch
  cases ht : event.type <;> simp only [reduceCtorEq, if_false, if_true]
  · rw [ResetState_m]
    split_ifs <;> rfl
  · split_ifs <;> rfl
  · rw [HandleTouchEnd_m]
  · simp only [HandleTouchEnd_m]

theorem beforeInputs_active (v : View) (event : QTouchEvent) :
    (beforeInputs v event).m.mActiveTouchPoints = v.m.mActiveTouchPoints := by
  unfold beforeInputs
  simp only
  split_ifs
  · rw [TestFlickingMode_active, touchDispatch_active]; rfl
  · rw [touchDispatch_active]; rfl

/-! ## The inputs handed to the engine -/

theorem touchEvent_inputs (v : View) (event : QTouchEvent) :
    inputsOf (newCalls v (touchEvent v event))
      = (if routed [TouchPointState.TouchPointPressed] event = [] then []
          else [{ mType := MultiTouchType.MULTITOUCH_START,
                  mTime := event.timestamp,
                  mTouches := routed [TouchPointState.TouchPointPressed] event
                    ++ routed [TouchPointState.TouchPointMoved,
                               TouchPointState.TouchPointStationary] event }])
        ++ (if routed [TouchPointState.TouchPointMoved,
                       TouchPointState.TouchPointStationary] event = [] then []
            else [{ mType := MultiTouchType.MULTITOUCH_MOVE,
                    mTime := event.timestamp,
                    mTouches := routed [TouchPointState.TouchPointMoved,
                                        TouchPointState.TouchPointStationary] event }])
        ++ (if cancelPrefix v.m.mActiveTouchPoints event
                ++ routed [TouchPointState.TouchPointReleased] event = [] then []
            else [{ mType := MultiTouchType.MULTITOUCH_END,
                    mTime := event.timestamp,
                    mTouches := cancelPrefix v.m.mActiveTouchPoints event
                      ++ routed [TouchPointState.TouchPointReleased] event }]) := by
  obtain ⟨l, hl, el⟩ := sendInputs_extends (buildInputs (beforeInputs v event) event).1
    (buildInputs (beforeInputs v event) event).2
  have hcalls : (touchEvent v event).calls
      = v.calls ++ (dispatchCalls v.m event ++ l
          ++ finishCalls (sendInputs (buildInputs (beforeInputs v event) event).1
              (buildInputs (beforeInputs v event) event).2).m event
            (touchDispatch
              (View.emit { v with m := { v.m with mPendingTouchEvent := true } }
                (Call.setAccepted true)) event).draggingChanged
            (touchDispatch
              (View.emit { v with m := { v.m with mPendingTouchEvent := true } }
                (Call.setAccepted true)) event).pinchingChanged) := by
    rw [touchEvent_eq, touchFinish_calls, hl, buildInputs_calls, beforeInputs_calls]
    simp
  rw [newCalls_append v _ _ hcalls, inputsOf_append, inputsOf_append, inputsOf_dispatchCalls,
    inputsOf_finishCalls, el, buildInputs_inputs, beforeInputs_active]
  simp

/-- C2: of the calls one `touchEvent` makes, those to `ReceiveInputEvent` are,
in this order, the start input holding the Pressed touches followed by the
Moved and Stationary touches (sent when there is a Pressed point), the move
input holding only the Moved and Stationary touches (sent when there is one)
and the end input (sent when it has a touch); no input with an empty touch
list is sent. -/
theorem C2_inputs_sent_start_move_end (v : View) (event : QTouchEvent) :
    inputsOf (newCalls v (touchEvent v event))
      = (if routed [TouchPointState.TouchPointPressed] event = [] then []
          else [{ mType := MultiTouchType.MULTITOUCH_START,
                  mTime := event.timestamp,
                  mTouches := routed [TouchPointState.TouchPointPressed] event
                    ++ routed [TouchPointState.TouchPointMoved,
                               TouchPointState.TouchPointStationary] event }])
        ++ (if routed [TouchPointState.TouchPointMoved,
                       TouchPointState.TouchPointStationary] event = [] then []
            else [{ mType := MultiTouchType.MULTITOUCH_MOVE,
                    mTime := event.timestamp,
                    mTouches := routed [TouchPointState.TouchPointMoved,
                                        TouchPointState.TouchPointStationary] event }])
        ++ (if cancelPrefix v.m.mActiveTouchPoints event
                ++ routed [TouchPointState.TouchPointReleased] event = [] then []
            else [{ mType := MultiTouchType.MULTITOUCH_END,
                    mTime := event.timestamp,
                    mTouches := cancelPrefix v.m.mActiveTouchPoints event
                      ++ routed [TouchPointState.TouchPointReleased] event }]) :=
  touchEvent_inputs v event

/-! ## The map of active touch points -/

theorem QMap.value_insert (m : QMap) (k : Int) (p : QPointF) (j : Int) :
    QMap.value (QMap.insert m k p) j = if j = k then some p else QMap.value m j := by
  induction m with
  | nil =>
    by_cases h : j = k
    · simp [QMap.insert, QMap.value, h]
    · have h2 : ¬ k = j := fun e => h e.symm
      simp [QMap.insert, QMap.value, h, h2]
  | cons a rest ih =>
    obtain ⟨a1, a2⟩ := a
    unfold QMap.insert
    by_cases h1 : k < a1
    · by_cases h : j = k
      · simp [QMap.value, h1, h]
      · have h2 : ¬ k = j := fun e => h e.symm
        simp [QMap.value, h1, h, h2]
    · by_cases h3 : k = a1
      · subst h3
        by_cases h : j = k
        · simp [QMap.value, h]
        · have h2 : ¬ k = j := fun e => h e.symm
          simp [QMap.value, h, h2]
      · simp only [h1, h3, if_false]
        have ih2 := ih
        unfold QMap.value at ih2 ⊢
        by_cases h4 : a1 = j
        · have h5 : ¬ j = k := fun e => h3 (by rw [← e, h4])
          simp [h4, h5]
        · simp only [List.find?_cons, h4, decide_False]
          exact ih2

theorem QMap.value_remove (m : QMap) (k j : Int) :
    QMap.value (QMap.remove m k) j = if j = k then none else QMap.value m j := by
  induction m with
  | nil => simp [QMap.remove, QMap.value]
  | cons a rest ih =>
    obtain ⟨a1, a2⟩ := a
    unfold QMap.remove QMap.value at ih ⊢
    by_cases h1 : a1 = k
    · subst h1
      by_cases h : j = a1
      · simp only [List.filter_cons, ne_eq, not_true_eq_false, decide_False]
        simp [h]
      · have h2 : ¬ a1 = j := fun e => h e.symm
        simp only [List.filter_cons, ne_eq, not_true_eq_false, decide_False,
          List.find?_cons, h2]
        simpa [h] using ih
    · by_cases h4 : a1 = j
      · have h5 : ¬ j = k := fun e => h1 (by rw [h4, e])
        simp [List.filter_cons, h1, h4, h5]
      · simp only [List.filter_cons, ne_eq, h1, not_false_eq_true, decide_True, if_true,
          List.find?_cons, h4, decide_False]
        exact ih

theorem QMap.mem_insert (m : QMap) (k : Int) (p : QPointF) (x : Int × QPointF)
    (hx : x ∈ QMap.insert m k p) : x = (k, p) ∨ x ∈ m := by
  induction m with
  | nil => simpa [QMap.insert] using hx
  | cons a rest ih =>
    obtain ⟨a1, a2⟩ := a
    unfold QMap.insert at hx
    split_ifs at hx with h1 h2
    · exact List.mem_cons.mp hx
    · rcases List.mem_cons.mp hx with h | h
      · exact Or.inl h
      · exact Or.inr (List.mem_cons_of_mem _ h)
    · rcases List.mem_cons.mp hx with h | h
      · exact Or.inr (by rw [h]; exact List.mem_cons_self _ _)
      · rcases ih h with h | h
        · exact Or.inl h
        · exact Or.inr (List.mem_cons_of_mem _ h)

theorem QMap.WF_insert (m : QMap) (k : Int) (p : QPointF) (h : QMap.WF m) :
    QMap.WF (QMap.insert m k p) := by
  induction m with
  | nil => simp [QMap.insert, QMap.WF]
  | cons a rest ih =>
    obtain ⟨a1, a2⟩ := a
    unfold QMap.WF at h ih ⊢
    rw [List.pairwise_cons] at h
    unfold QMap.insert
    split_ifs with h1 h2
    · refine List.pairwise_cons.mpr ⟨?_, List.pairwise_cons.mpr h⟩
      intro x hx
      rcases List.mem_cons.mp hx with hx | hx
      · rw [hx]; exact h1
      · exact lt_trans h1 (h.1 x hx)
    · subst h2
      exact List.pairwise_cons.mpr ⟨h.1, h.2⟩
    · refine List.pairwise_cons.mpr ⟨?_, ih h.2⟩
      intro x hx
      rcases QMap.mem_insert rest k p x hx with hx | hx
      · rw [hx]
        exact lt_of_le_of_ne (not_lt.mp h1) (fun e => h2 e.symm)
      · exact h.1 x hx

theorem QMap.WF_remove (m : QMap) (k : Int) (h : QMap.WF m) : QMap.WF (QMap.remove m k) :=
  List.Pairwise.filter _ h

theorem routePoint_WF (s : View × TouchInputs) (pt : TouchPoint)
    (h : QMap.WF s.1.m.mActiveTouchPoints) :
    QMap.WF (routePoint s pt).1.m.mActiveTouchPoints := by
  unfold routePoint
  cases pt.state
  · exact QMap.WF_insert _ _ _ h
  · exact QMap.WF_insert _ _ _ h
  · exact QMap.WF_insert _ _ _ h
  · exact QMap.WF_remove _ _ h
  · exact h

theorem routePoint_value (s : View × TouchInputs) (pt : TouchPoint) (f : Int → Option QPointF)
    (h : ∀ j, QMap.value s.1.m.mActiveTouchPoints j = f j) (j : Int) :
    QMap.value (routePoint s pt).1.m.mActiveTouchPoints j = recordPoint f pt j := by
  unfold routePoint recordPoint
  cases pt.state <;>
    simp only [QMap.value_insert, QMap.value_remove, Function.update_apply, h]

theorem foldl_routePoint_WF (pts : List TouchPoint) (s : View × TouchInputs)
    (h : QMap.WF s.1.m.mActiveTouchPoints) :
    QMap.WF (pts.foldl routePoint s).1.m.mActiveTouchPoints := by
  induction pts generalizing s with
  | nil => exact h
  | cons pt rest ih => exact ih _ (routePoint_WF s pt h)

theorem foldl_routePoint_value (pts : List TouchPoint) (s : View × TouchInputs)
    (f : Int → Option QPointF) (h : ∀ j, QMap.value s.1.m.mActiveTouchPoints j = f j) (j : Int) :
    QMap.value (pts.foldl routePoint s).1.m.mActiveTouchPoints j
      = pts.foldl recordPoint f j := by
  induction pts generalizing s f with
  | nil => exact h j
  | cons pt rest ih => exact ih _ _ (routePoint_value s pt f h)

theorem cancelBlock_active (v : View) (event : QTouchEvent) (t : TouchInputs) :
    (cancelBlock v event t).1.m.mActiveTouchPoints
      = if event.type = EventType.TouchCancel ∧ event.touchPoints.length = 0 then []
        else v.m.mActiveTouchPoints := by
  unfold cancelBlock
  split_ifs <;> rfl

theorem touchFinish_active (v : View) (event : QTouchEvent) (dc pc : Bool) :
    (touchFinish v event dc pc).m.mActiveTouchPoints = v.m.mActiveTouchPoints := by
  unfold touchFinish
  simp only
  split_ifs <;> simp [UpdateMoving_m, ResetState_m]

theorem touchEvent_active (v : View) (event : QTouchEvent) :
    (touchEvent v event).m.mActiveTouchPoints
      = (event.touchPoints.foldl routePoint
          (cancelBlock (beforeInputs v event) event
            (TouchInputs.init (current_timestamp event)))).1.m.mActiveTouchPoints := by
  rw [touchEvent_eq, touchFinish_active, sendInputs_m]
  rfl

theorem QMap.value_of_mem (m : QMap) (h : QMap.WF m) (k : Int) (p : QPointF)
    (hm : (k, p) ∈ m) : QMap.value m k = some p := by
  induction m with
  | nil => simp at hm
  | cons a rest ih =>
    obtain ⟨a1, a2⟩ := a
    unfold QMap.WF at h ih
    rw [List.pairwise_cons] at h
    rcases List.mem_cons.mp hm with hm | hm
    · cases hm
      simp [QMap.value]
    · have hlt : a1 < k := h.1 (k, p) hm
      have hne : ¬ a1 = k := ne_of_lt hlt
      have ih2 := ih h.2 hm
      unfold QMap.value at ih2 ⊢
      simp only [List.find?_cons, hne, decide_False]
      exact ih2

theorem cancelledTouches_ids (m : QMap) :
    (cancelledTouches m).map (fun t => t.mIdentifier) = m.map Prod.fst := by
  simp [cancelledTouches, List.map_map, Function.comp_def]

theorem cancelledTouches_sorted (m : QMap) (h : QMap.WF m) :
    List.Pairwise (fun a b => a < b) ((cancelledTouches m).map (fun t => t.mIdentifier)) := by
  rw [cancelledTouches_ids]
  exact (List.pairwise_map).mpr h

theorem cancelledTouches_value (m : QMap) (h : QMap.WF m) (t : SingleTouchData)
    (ht : t ∈ cancelledTouches m) :
    ∃ p, QMap.value m t.mIdentifier = some p
      ∧ t = { mIdentifier := t.mIdentifier,
              mScreenPoint := { x := truncToInt p.xp, y := truncToInt p.yp },
              mRadius := (1, 1), mRotationAngle := 180, mForce := 0 } := by
  unfold cancelledTouches at ht
  obtain ⟨entry, he, rfl⟩ := List.mem_map.mp ht
  exact ⟨entry.2, QMap.value_of_mem m h entry.1 entry.2 he, rfl⟩

/-- C3: a TouchCancel event without touch points puts one touch per entry of
the active-touch-point map into the end input (id the key, position the
stored one with fractions dropped, force 0), in ascending id order, sends it
when the map is not empty, and leaves the map empty.  Every event maintains
the map: as a position per id it is what recording the event's points gives,
Pressed, Moved and Stationary points storing their position under their id and
Released points removing their id, and its keys stay ascending. -/
theorem C3_cancelled_sequence_and_active_map (v : View) (event cancel : QTouchEvent)
    (hwf : QMap.WF v.m.mActiveTouchPoints)
    (hc : cancel.type = EventType.TouchCancel) (h0 : cancel.touchPoints = []) :
    ((buildInputs (beforeInputs v cancel) cancel).2.meventEnd
        = { mType := MultiTouchType.MULTITOUCH_END,
            mTime := cancel.timestamp,
            mTouches := cancelledTouches v.m.mActiveTouchPoints })
      ∧ (inputsOf (newCalls v (touchEvent v cancel))
          = if v.m.mActiveTouchPoints = [] then []
            else [{ mType := MultiTouchType.MULTITOUCH_END,
                    mTime := cancel.timestamp,
                    mTouches := cancelledTouches v.m.mActiveTouchPoints }])
      ∧ (cancelledTouches v.m.mActiveTouchPoints).map (fun t => t.mIdentifier)
          = v.m.mActiveTouchPoints.map Prod.fst
      ∧ List.Pairwise (fun a b => a < b)
          ((cancelledTouches v.m.mActiveTouchPoints).map (fun t => t.mIdentifier))
      ∧ (∀ t ∈ cancelledTouches v.m.mActiveTouchPoints,
          ∃ p, QMap.value v.m.mActiveTouchPoints t.mIdentifier = some p
            ∧ t = { mIdentifier := t.mIdentifier,
                    mScreenPoint := { x := truncToInt p.xp, y := truncToInt p.yp },
                    mRadius := (1, 1), mRotationAngle := 180, mForce := 0 })
      ∧ (touchEvent v cancel).m.mActiveTouchPoints = []
      ∧ QMap.WF (touchEvent v event).m.mActiveTouchPoints
      ∧ ∀ j, QMap.value (touchEvent v event).m.mActiveTouchPoints j
          = event.touchPoints.foldl recordPoint
              (if event.type = EventType.TouchCancel ∧ event.touchPoints = [] then
                fun _ => none
               else QMap.value v.m.mActiveTouchPoints) j := by
  have hr : ∀ states, routed states cancel = [] := by
    intro states
    simp [routed, h0]
  have hp : cancelPrefix v.m.mActiveTouchPoints cancel
      = cancelledTouches v.m.mActiveTouchPoints := by
    simp [cancelPrefix, hc, h0]
  have hnil : cancelledTouches v.m.mActiveTouchPoints = [] ↔ v.m.mActiveTouchPoints = [] := by
    simp [cancelledTouches]
  refine ⟨?_, ?_, cancelledTouches_ids _, cancelledTouches_sorted _ hwf,
    cancelledTouches_value _ hwf, ?_, ?_, ?_⟩
  · rw [buildInputs_inputs, beforeInputs_active, hp]
    simp [hr]
  · rw [touchEvent_inputs, hp]
    simp [hr, hnil]
  · rw [touchEvent_active, h0, List.foldl_nil, cancelBlock_active]
    simp [hc, h0]
  · rw [touchEvent_active]
    apply foldl_routePoint_WF
    rw [cancelBlock_active, beforeInputs_active]
    split_ifs
    · exact List.Pairwise.nil
    · exact hwf
  · intro j
    rw [touchEvent_active]
    apply foldl_routePoint_value
    intro i
    rw [cancelBlock_active, beforeInputs_active]
    by_cases h : event.type = EventType.TouchCancel ∧ event.touchPoints = []
    · have h2 : event.type = EventType.TouchCancel ∧ event.touchPoints.length = 0 :=
        ⟨h.1, by simp [h.2]⟩
      simp [h, QMap.value]
    · have h2 : ¬ (event.type = EventType.TouchCancel ∧ event.touchPoints.length = 0) := by
        simpa using h
      rw [if_neg h2, if_neg h]

/-! ## `UpdateScrollArea` -/

theorem UpdateScrollArea_size (FuzzyEqual : Rat → Rat → Rat → Bool) (v : View)
    (aWidth aHeight : Nat) (aPosX aPosY : Rat) :
    (UpdateScrollArea FuzzyEqual v aWidth aHeight aPosX aPosY).m.mScrollableSize
      = ⟨(aWidth : Rat), (aHeight : Rat)⟩ := by
  unfold UpdateScrollArea
  simp only
  rcases hs : v.m.mScrollableSize with ⟨w0, h0⟩
  split_ifs <;> simp_all [updateDecorators, View.emit]

theorem UpdateScrollArea_chrome (FuzzyEqual : Rat → Rat → Rat → Bool) (v : View)
    (aWidth aHeight : Nat) (aPosX aPosY : Rat) :
    (UpdateScrollArea FuzzyEqual v aWidth aHeight aPosX aPosY).m.mChrome = v.m.mChrome
      ∧ (UpdateScrollArea FuzzyEqual v aWidth aHeight aPosX aPosY).m.mDragStartY
          = v.m.mDragStartY
      ∧ (UpdateScrollArea FuzzyEqual v aWidth aHeight aPosX aPosY).m.mMoveDelta
          = v.m.mMoveDelta := by
  unfold UpdateScrollArea
  simp only
  split_ifs <;> simp [updateDecorators, View.emit]

theorem UpdateScrollArea_trace (FuzzyEqual : Rat → Rat → Rat → Bool) (v : View)
    (aWidth aHeight : Nat) (aPosX aPosY : Rat) :
    ∃ mOff : Members,
      (UpdateScrollArea FuzzyEqual v aWidth aHeight aPosX aPosY).trace
        = v.trace
          ++ (if FuzzyEqual v.m.mScrollableOffset.xp aPosX SCROLL_EPSILON = true
                ∧ FuzzyEqual v.m.mScrollableOffset.yp aPosY SCROLL_EPSILON = true then []
              else [(Call.scrollableOffsetChanged, mOff)])
          ++ (if v.m.mScrollableSize.wd = (aWidth : Rat) then []
              else [(Call.contentWidthChanged,
                     (UpdateScrollArea FuzzyEqual v aWidth aHeight aPosX aPosY).m)])
          ++ (if v.m.mScrollableSize.ht = (aHeight : Rat) then []
              else [(Call.contentHeightChanged,
                     (UpdateScrollArea FuzzyEqual v aWidth aHeight aPosX aPosY).m)]) := by
  unfold UpdateScrollArea
  simp only
  by_cases hw : v.m.mScrollableSize.wd = (aWidth : Rat) <;>
    by_cases hh : v.m.mScrollableSize.ht = (aHeight : Rat) <;>
    by_cases hx : FuzzyEqual v.m.mScrollableOffset.xp aPosX SCROLL_EPSILON = true <;>
    by_cases hy : FuzzyEqual v.m.mScrollableOffset.yp aPosY SCROLL_EPSILON = true <;>
    by_cases hen : v.m.mEnabled = true <;>
    simp [hw, hh, hx, hy, hen, View.emit] <;> exact ⟨v.m, trivial⟩

theorem newTrace_append (v w : View) (l : List (Call × Members)) (h : w.trace = v.trace ++ l) :
    newTrace v w = l := by
  simp [newTrace, h]

/-- C9: the calls of one `UpdateScrollArea` are, in this order,
`scrollableOffsetChanged` (when the offset is not fuzzily equal to the new
one), `contentWidthChanged` exactly when the stored width differed from
`aWidth` and `contentHeightChanged` exactly when the stored height differed
from `aHeight`; the members seen by the last two are those the call leaves
behind, in which `mScrollableSize` is `(aWidth, aHeight)`. -/
theorem C9_size_changes_emitted_after_both_updates (FuzzyEqual : Rat → Rat → Rat → Bool)
    (v : View) (aWidth aHeight : Nat) (aPosX aPosY : Rat) :
    (∃ mOff : Members,
      newTrace v (UpdateScrollArea FuzzyEqual v aWidth aHeight aPosX aPosY)
        = (if FuzzyEqual v.m.mScrollableOffset.xp aPosX SCROLL_EPSILON = true
              ∧ FuzzyEqual v.m.mScrollableOffset.yp aPosY SCROLL_EPSILON = true then []
            else [(Call.scrollableOffsetChanged, mOff)])
          ++ (if v.m.mScrollableSize.wd = (aWidth : Rat) then []
              else [(Call.contentWidthChanged,
                     (UpdateScrollArea FuzzyEqual v aWidth aHeight aPosX aPosY).m)])
          ++ (if v.m.mScrollableSize.ht = (aHeight : Rat) then []
              else [(Call.contentHeightChanged,
                     (UpdateScrollArea FuzzyEqual v aWidth aHeight aPosX aPosY).m)]))
      ∧ (UpdateScrollArea FuzzyEqual v aWidth aHeight aPosX aPosY).m.mScrollableSize
          = ⟨(aWidth : Rat), (aHeight : Rat)⟩ := by
  obtain ⟨mOff, h⟩ := UpdateScrollArea_trace FuzzyEqual v aWidth aHeight aPosX aPosY
  refine ⟨⟨mOff, newTrace_append v _ _ ?_⟩, UpdateScrollArea_size _ _ _ _ _ _⟩
  rw [h]
  simp only [List.append_assoc]

/-! ## Chrome thresholding -/

theorem UpdateScrollArea_calls (FuzzyEqual : Rat → Rat → Rat → Bool) (v : View)
    (aWidth aHeight : Nat) (aPosX aPosY : Rat) :
    ∃ l, (UpdateScrollArea FuzzyEqual v aWidth aHeight aPosX aPosY).calls = v.calls ++ l
      ∧ l.count Call.chromeChanged = 0 := by
  obtain ⟨mOff, h⟩ := UpdateScrollArea_trace FuzzyEqual v aWidth aHeight aPosX aPosY
  refine ⟨_, by simp only [View.calls, h, List.map_append, List.append_assoc]; rfl, ?_⟩
  simp only [List.count_append]
  split_ifs <;> simp

/-- The chrome value the thresholding of lines 514-526 leaves behind. -/
theorem chromeGesture_on (v : View) (r : QRectF)
    (hen : v.m.mEnabled = true) (hg : v.m.mChromeGestureEnabled = true)
    (hd : 0 ≤ v.m.mDragStartY) :
    (chromeGesture v r).m
        = { v.m with
            mDragStartY :=
              if |r.yp * v.m.mContentResolution - v.m.mDragStartY| < v.m.mMoveDelta then
                r.yp * v.m.mContentResolution
              else v.m.mDragStartY,
            mChrome :=
              if r.yp * v.m.mContentResolution - v.m.mDragStartY
                  > v.m.mChromeGestureThreshold then false
              else if r.yp * v.m.mContentResolution - v.m.mDragStartY
                  < -v.m.mChromeGestureThreshold then true
              else v.m.mChrome,
            mMoveDelta := |r.yp * v.m.mContentResolution - v.m.mDragStartY| }
      ∧ (chromeGesture v r).calls
        = v.calls ++
          (if (if r.yp * v.m.mContentResolution - v.m.mDragStartY
                  > v.m.mChromeGestureThreshold then false
              else if r.yp * v.m.mContentResolution - v.m.mDragStartY
                  < -v.m.mChromeGestureThreshold then true
              else v.m.mChrome) = v.m.mChrome then []
           else [Call.chromeChanged]) := by
  obtain ⟨m, tr⟩ := v
  cases m
  simp only at hen hg hd
  unfold chromeGesture
  simp only [hen, hg, hd, ge_iff_le, and_self, if_true]
  split_ifs <;> simp_all [View.emit, View.calls]

theorem chromeGesture_off (v : View) (r : QRectF)
    (h : ¬ (v.m.mEnabled = true ∧ v.m.mChromeGestureEnabled = true ∧ 0 ≤ v.m.mDragStartY)) :
    chromeGesture v r = v := by
  unfold chromeGesture
  rw [if_neg]
  simpa using h

theorem rect_ne_iff (a r : QRectF) :
    (a.xp ≠ r.xp ∨ a.yp ≠ r.yp ∨ a.w ≠ r.w ∨ a.h ≠ r.h) ↔ a ≠ r := by
  cases a
  cases r
  simp only [ne_eq, QRectF.mk.injEq]
  tauto

theorem contentRectBlock_on (v : View) (r : QRectF)
    (hen : v.m.mEnabled = true) (hg : v.m.mChromeGestureEnabled = true)
    (hd : 0 ≤ v.m.mDragStartY) (hrect : v.m.mContentRect ≠ r) :
    (contentRectBlock v r).m.mChrome = chromeAfter v.m (currentDelta v.m r)
      ∧ (contentRectBlock v r).m.mMoveDelta = |currentDelta v.m r|
      ∧ (contentRectBlock v r).m.mDragStartY
          = (if |currentDelta v.m r| < v.m.mMoveDelta then r.yp * (v.m.mSize.wd / r.w)
             else v.m.mDragStartY)
      ∧ (contentRectBlock v r).calls
          = v.calls ++ Call.viewAreaChanged
              :: (if chromeAfter v.m (currentDelta v.m r) = v.m.mChrome then []
                  else [Call.chromeChanged]) := by
  have hne := (rect_ne_iff v.m.mContentRect r).mpr hrect
  unfold contentRectBlock
  simp only [hne, if_true]
  obtain ⟨hm, hc⟩ := chromeGesture_on
    (View.emit
      { v with m := { v.m with
          mContentResolution := v.m.mSize.wd / r.w,
          mContentRect := ⟨r.xp, r.yp, r.w, r.h⟩ } } Call.viewAreaChanged) r hen hg hd
  rw [hm, hc]
  simp [chromeAfter, currentDelta]

theorem contentRectBlock_gesture_off (v : View) (r : QRectF)
    (hg : v.m.mChromeGestureEnabled = false) :
    (contentRectBlock v r).m.mChrome = v.m.mChrome
      ∧ (contentRectBlock v r).m.mDragStartY = v.m.mDragStartY
      ∧ (contentRectBlock v r).m.mMoveDelta = v.m.mMoveDelta
      ∧ (contentRectBlock v r).calls
          = v.calls ++ (if v.m.mContentRect = r then [] else [Call.viewAreaChanged]) := by
  unfold contentRectBlock
  simp only
  by_cases hrect : v.m.mContentRect = r
  · have hne := (not_congr (rect_ne_iff v.m.mContentRect r)).mpr (not_not.mpr hrect)
    rw [if_neg hne, if_pos hrect]
    simp
  · have hne := (rect_ne_iff v.m.mContentRect r).mpr hrect
    rw [if_pos hne, if_neg hrect, chromeGesture_off]
    · simp
    · simp [hg]

theorem SendAsyncScrollDOMEvent_chrome (FuzzyEqual : Rat → Rat → Rat → Bool) (v : View)
    (r : QRectF) (sz : QSizeF) :
    (SendAsyncScrollDOMEvent FuzzyEqual v r sz).m.mChrome = (contentRectBlock v r).m.mChrome
      ∧ (SendAsyncScrollDOMEvent FuzzyEqual v r sz).m.mDragStartY
          = (contentRectBlock v r).m.mDragStartY
      ∧ (SendAsyncScrollDOMEvent FuzzyEqual v r sz).m.mMoveDelta
          = (contentRectBlock v r).m.mMoveDelta
      ∧ ∃ l, (SendAsyncScrollDOMEvent FuzzyEqual v r sz).calls
              = (contentRectBlock v r).calls ++ l
          ∧ l.count Call.chromeChanged = 0 := by
  unfold SendAsyncScrollDOMEvent
  simp only
  obtain ⟨h1, h2, h3⟩ := UpdateScrollArea_chrome FuzzyEqual (contentRectBlock v r)
    (truncToUInt (sz.wd * (contentRectBlock v r).m.mContentResolution))
    (truncToUInt (sz.ht * (contentRectBlock v r).m.mContentResolution))
    (r.xp * (contentRectBlock v r).m.mContentResolution)
    (r.yp * (contentRectBlock v r).m.mContentResolution)
  exact ⟨h1, h2, h3, UpdateScrollArea_calls _ _ _ _ _ _⟩

/-- C4: with the view enabled, chrome gestures enabled, a drag start that is
not negative and a content rectangle different from the stored one,
`SendAsyncScrollDOMEvent` leaves `mChrome` false when `currentDelta` is above
the threshold, otherwise true when it is below the negated threshold,
otherwise unchanged; it sends `chromeChanged` once when `mChrome` changes and
not at all otherwise; and `mMoveDelta` becomes `|currentDelta|`. -/
theorem C4_chrome_thresholding (FuzzyEqual : Rat → Rat → Rat → Bool) (v : View)
    (aContentRect : QRectF) (aScrollableSize : QSizeF)
    (hen : v.m.mEnabled = true) (hg : v.m.mChromeGestureEnabled = true)
    (hd : 0 ≤ v.m.mDragStartY) (hrect : v.m.mContentRect ≠ aContentRect) :
    (SendAsyncScrollDOMEvent FuzzyEqual v aContentRect aScrollableSize).m.mChrome
        = (if currentDelta v.m aContentRect > v.m.mChromeGestureThreshold then false
           else if currentDelta v.m aContentRect < -v.m.mChromeGestureThreshold then true
           else v.m.mChrome)
      ∧ (newCalls v (SendAsyncScrollDOMEvent FuzzyEqual v aContentRect aScrollableSize)).count
            Call.chromeChanged
          = (if (SendAsyncScrollDOMEvent FuzzyEqual v aContentRect aScrollableSize).m.mChrome
                = v.m.mChrome then 0 else 1)
      ∧ (SendAsyncScrollDOMEvent FuzzyEqual v aContentRect aScrollableSize).m.mMoveDelta
          = |currentDelta v.m aContentRect| := by
  obtain ⟨c1, _, c3, l, hl, hcount⟩ :=
    SendAsyncScrollDOMEvent_chrome FuzzyEqual v aContentRect aScrollableSize
  obtain ⟨b1, b2, _, b4⟩ := contentRectBlock_on v aContentRect hen hg hd hrect
  refine ⟨by rw [c1, b1]; rfl, ?_, by rw [c3, b2]⟩
  rw [newCalls_append v _ _ (by rw [hl, b4, List.append_assoc]), c1, b1]
  simp only [List.count_append, hcount]
  split_ifs <;> simp

/-- C5: a `SendAsyncScrollDOMEvent` made while `mChromeGestureEnabled` is
false leaves `mChrome`, `mDragStartY` and `mMoveDelta` as they were and does
not send `chromeChanged`. -/
theorem C5_no_chrome_action_when_gesture_disabled (FuzzyEqual : Rat → Rat → Rat → Bool)
    (v : View) (aContentRect : QRectF) (aScrollableSize : QSizeF)
    (hg : v.m.mChromeGestureEnabled = false) :
    (SendAsyncScrollDOMEvent FuzzyEqual v aContentRect aScrollableSize).m.mChrome = v.m.mChrome
      ∧ (SendAsyncScrollDOMEvent FuzzyEqual v aContentRect aScrollableSize).m.mDragStartY
          = v.m.mDragStartY
      ∧ (SendAsyncScrollDOMEvent FuzzyEqual v aContentRect aScrollableSize).m.mMoveDelta
          = v.m.mMoveDelta
      ∧ Call.chromeChanged
          ∉ newCalls v (SendAsyncScrollDOMEvent FuzzyEqual v aContentRect aScrollableSize) := by
  obtain ⟨c1, c2, c3, l, hl, hcount⟩ :=
    SendAsyncScrollDOMEvent_chrome FuzzyEqual v aContentRect aScrollableSize
  obtain ⟨b1, b2, b3, b4⟩ := contentRectBlock_gesture_off v aContentRect hg
  refine ⟨by rw [c1, b1], by rw [c2, b2], by rw [c3, b3], ?_⟩
  rw [newCalls_append v _ _ (by rw [hl, b4, List.append_assoc])]
  have hl0 : Call.chromeChanged ∉ l := List.count_eq_zero.mp hcount
  simp only [List.mem_append, not_or]
  refine ⟨?_, hl0⟩
  split_ifs <;> simp

/-- A concrete run of C3: the cancel of a two finger sequence, and a move of
finger 4 next to a release of finger 1. -/
theorem C3_witness :
    QMap.WF twoFingerView.m.mActiveTouchPoints
      ∧ inputsOf (newCalls twoFingerView
            (touchEvent twoFingerView ⟨EventType.TouchCancel, 50, []⟩))
          = [{ mType := MultiTouchType.MULTITOUCH_END, mTime := 50,
               mTouches := [⟨1, ⟨1, 5⟩, (1, 1), 180, 0⟩, ⟨4, ⟨-3, 8⟩, (1, 1), 180, 0⟩] }]
      ∧ (touchEvent twoFingerView ⟨EventType.TouchCancel, 50, []⟩).m.mActiveTouchPoints = []
      ∧ QMap.WF (touchEvent twoFingerView
          ⟨EventType.TouchUpdate, 40,
            [⟨4, ⟨9, 9⟩, ⟨0, 0, 1, 1⟩, TouchPointState.TouchPointMoved, 1⟩,
             ⟨1, ⟨2, 5⟩, ⟨0, 0, 1, 1⟩, TouchPointState.TouchPointReleased, 0⟩]⟩).m.mActiveTouchPoints :=
  have h := C3_cancelled_sequence_and_active_map twoFingerView
    ⟨EventType.TouchUpdate, 40,
      [⟨4, ⟨9, 9⟩, ⟨0, 0, 1, 1⟩, TouchPointState.TouchPointMoved, 1⟩,
       ⟨1, ⟨2, 5⟩, ⟨0, 0, 1, 1⟩, TouchPointState.TouchPointReleased, 0⟩]⟩
    ⟨EventType.TouchCancel, 50, []⟩ (by decide) rfl rfl
  ⟨by decide, h.2.1.trans (by with_unfolding_all decide), h.2.2.2.2.2.1, h.2.2.2.2.2.2.1⟩

/-- A concrete run of C4: a report 30 above the drag start with threshold 10
hides the chrome. -/
theorem C4_witness :
    draggedView.m.mEnabled = true ∧ draggedView.m.mChromeGestureEnabled = true
      ∧ 0 ≤ draggedView.m.mDragStartY ∧ draggedView.m.mContentRect ≠ (reportAt 130).1
      ∧ (SendAsyncScrollDOMEvent gfxFuzzyEqual draggedView (reportAt 130).1
            (reportAt 130).2).m.mChrome = false
      ∧ (SendAsyncScrollDOMEvent gfxFuzzyEqual draggedView (reportAt 130).1
            (reportAt 130).2).m.mMoveDelta = 30 :=
  have h := C4_chrome_thresholding gfxFuzzyEqual draggedView (reportAt 130).1 (reportAt 130).2
    rfl rfl (by decide) (by decide)
  ⟨rfl, rfl, by decide, by decide, h.1.trans (by with_unfolding_all decide),
    h.2.2.trans (by with_unfolding_all decide)⟩

/-- A concrete run of C5: the same report with chrome gestures switched off
leaves the chrome shown. -/
theorem C5_witness :
    (SendAsyncScrollDOMEvent gfxFuzzyEqual
        { draggedView with m := { draggedView.m with mChromeGestureEnabled := false } }
        (reportAt 130).1 (reportAt 130).2).m.mChrome = true
      ∧ (SendAsyncScrollDOMEvent gfxFuzzyEqual
          { draggedView with m := { draggedView.m with mChromeGestureEnabled := false } }
          (reportAt 130).1 (reportAt 130).2).m.mDragStartY = 100 :=
  have h := C5_no_chrome_action_when_gesture_disabled gfxFuzzyEqual
    { draggedView with m := { draggedView.m with mChromeGestureEnabled := false } }
    (reportAt 130).1 (reportAt 130).2 rfl
  ⟨h.1, h.2.1⟩

/-! ## Runs of scroll reports -/

theorem chromeGesture_frame (v : View) (r : QRectF) :
    (chromeGesture v r).m.mEnabled = v.m.mEnabled
      ∧ (chromeGesture v r).m.mChromeGestureEnabled = v.m.mChromeGestureEnabled
      ∧ (chromeGesture v r).m.mChromeGestureThreshold = v.m.mChromeGestureThreshold
      ∧ (chromeGesture v r).m.mSize = v.m.mSize := by
  unfold chromeGesture
  simp only
  split_ifs <;> simp [View.emit]

theorem UpdateScrollArea_frame (FuzzyEqual : Rat → Rat → Rat → Bool) (v : View)
    (aWidth aHeight : Nat) (aPosX aPosY : Rat) :
    (UpdateScrollArea FuzzyEqual v aWidth aHeight aPosX aPosY).m.mEnabled = v.m.mEnabled
      ∧ (UpdateScrollArea FuzzyEqual v aWidth aHeight aPosX aPosY).m.mChromeGestureEnabled
          = v.m.mChromeGestureEnabled
      ∧ (UpdateScrollArea FuzzyEqual v aWidth aHeight aPosX aPosY).m.mChromeGestureThreshold
          = v.m.mChromeGestureThreshold
      ∧ (UpdateScrollArea FuzzyEqual v aWidth aHeight aPosX aPosY).m.mSize = v.m.mSize := by
  unfold UpdateScrollArea
  simp only
  split_ifs <;> simp [updateDecorators, View.emit]

theorem contentRectBlock_frame (v : View) (r : QRectF) :
    (contentRectBlock v r).m.mEnabled = v.m.mEnabled
      ∧ (contentRectBlock v r).m.mChromeGestureEnabled = v.m.mChromeGestureEnabled
      ∧ (contentRectBlock v r).m.mChromeGestureThreshold = v.m.mChromeGestureThreshold
      ∧ (contentRectBlock v r).m.mSize = v.m.mSize := by
  unfold contentRectBlock
  simp only
  split_ifs
  · obtain ⟨h1, h2, h3, h4⟩ := chromeGesture_frame
      (View.emit
        { v with m := { v.m with
            mContentResolution := v.m.mSize.wd / r.w,
            mContentRect := ⟨r.xp, r.yp, r.w, r.h⟩ } } Call.viewAreaChanged) r
    exact ⟨h1, h2, h3, h4⟩
  · exact ⟨rfl, rfl, rfl, rfl⟩

theorem SendAsyncScrollDOMEvent_frame (FuzzyEqual : Rat → Rat → Rat → Bool) (v : View)
    (r : QRectF) (sz : QSizeF) :
    (SendAsyncScrollDOMEvent FuzzyEqual v r sz).m.mEnabled = v.m.mEnabled
      ∧ (SendAsyncScrollDOMEvent FuzzyEqual v r sz).m.mChromeGestureEnabled
          = v.m.mChromeGestureEnabled
      ∧ (SendAsyncScrollDOMEvent FuzzyEqual v r sz).m.mChromeGestureThreshold
          = v.m.mChromeGestureThreshold
      ∧ (SendAsyncScrollDOMEvent FuzzyEqual v r sz).m.mSize = v.m.mSize := by
  obtain ⟨h1, h2, h3, h4⟩ := contentRectBlock_frame v r
  unfold SendAsyncScrollDOMEvent
  simp only
  obtain ⟨g1, g2, g3, g4⟩ := UpdateScrollArea_frame FuzzyEqual (contentRectBlock v r)
    (truncToUInt (sz.wd * (contentRectBlock v r).m.mContentResolution))
    (truncToUInt (sz.ht * (contentRectBlock v r).m.mContentResolution))
    (r.xp * (contentRectBlock v r).m.mContentResolution)
    (r.yp * (contentRectBlock v r).m.mContentResolution)
  exact ⟨g1.trans h1, g2.trans h2, g3.trans h3, g4.trans h4⟩

theorem scrollRun_frame (FuzzyEqual : Rat → Rat → Rat → Bool)
    (reports : List (QRectF × QSizeF)) (v : View) :
    (scrollRun FuzzyEqual v reports).m.mEnabled = v.m.mEnabled
      ∧ (scrollRun FuzzyEqual v reports).m.mChromeGestureEnabled = v.m.mChromeGestureEnabled
      ∧ (scrollRun FuzzyEqual v reports).m.mChromeGestureThreshold
          = v.m.mChromeGestureThreshold
      ∧ (scrollRun FuzzyEqual v reports).m.mSize = v.m.mSize := by
  induction reports generalizing v with
  | nil => exact ⟨rfl, rfl, rfl, rfl⟩
  | cons r rest ih =>
    obtain ⟨h1, h2, h3, h4⟩ := SendAsyncScrollDOMEvent_frame FuzzyEqual v r.1 r.2
    obtain ⟨g1, g2, g3, g4⟩ := ih (SendAsyncScrollDOMEvent FuzzyEqual v r.1 r.2)
    exact ⟨g1.trans h1, g2.trans h2, g3.trans h3, g4.trans h4⟩

theorem scrollRun_snoc (FuzzyEqual : Rat → Rat → Rat → Bool)
    (reports : List (QRectF × QSizeF)) (last : QRectF × QSizeF) (v : View) :
    scrollRun FuzzyEqual v (reports ++ [last])
      = SendAsyncScrollDOMEvent FuzzyEqual (scrollRun FuzzyEqual v reports) last.1 last.2 := by
  simp [scrollRun, List.foldl_append]

/-- The chrome value after one report made in a drag with gestures on. -/
theorem SendAsyncScrollDOMEvent_chromeAfter (FuzzyEqual : Rat → Rat → Rat → Bool) (v : View)
    (r : QRectF) (sz : QSizeF)
    (hen : v.m.mEnabled = true) (hg : v.m.mChromeGestureEnabled = true)
    (hd : 0 ≤ v.m.mDragStartY) (hrect : v.m.mContentRect ≠ r) :
    (SendAsyncScrollDOMEvent FuzzyEqual v r sz).m.mChrome
      = chromeAfter v.m (currentDelta v.m r) := by
  rw [(SendAsyncScrollDOMEvent_chrome FuzzyEqual v r sz).1,
    (contentRectBlock_on v r hen hg hd hrect).1]

/-- The thresholding over a run: in a drag with chrome gestures on and a positive
threshold, a first report more than the threshold above the drag start hides
the chrome, and a later report that is more than the threshold below the
drag start the object holds when that report arrives (the start is re-based
by the reports in between) shows it again. -/
theorem chrome_restored_from_held_drag_start (FuzzyEqual : Rat → Rat → Rat → Bool)
    (v : View) (first : QRectF × QSizeF) (mid : List (QRectF × QSizeF))
    (last : QRectF × QSizeF)
    (hen : v.m.mEnabled = true) (hg : v.m.mChromeGestureEnabled = true)
    (hT : 0 < v.m.mChromeGestureThreshold) (hd : 0 ≤ v.m.mDragStartY)
    (hrect : v.m.mContentRect ≠ first.1)
    (hfar : currentDelta v.m first.1 > v.m.mChromeGestureThreshold)
    (hd2 : 0 ≤ (scrollRun FuzzyEqual v (first :: mid)).m.mDragStartY)
    (hrect2 : (scrollRun FuzzyEqual v (first :: mid)).m.mContentRect ≠ last.1)
    (hback : currentDelta (scrollRun FuzzyEqual v (first :: mid)).m last.1
        < -v.m.mChromeGestureThreshold) :
    (scrollRun FuzzyEqual v [first]).m.mChrome = false
      ∧ (scrollRun FuzzyEqual v (first :: mid ++ [last])).m.mChrome = true := by
  obtain ⟨f1, f2, f3, _⟩ := scrollRun_frame FuzzyEqual (first :: mid) v
  constructor
  · show (SendAsyncScrollDOMEvent FuzzyEqual v first.1 first.2).m.mChrome = false
    rw [SendAsyncScrollDOMEvent_chromeAfter FuzzyEqual v first.1 first.2 hen hg hd hrect]
    simp [chromeAfter, hfar]
  · rw [scrollRun_snoc,
      SendAsyncScrollDOMEvent_chromeAfter FuzzyEqual _ last.1 last.2
        (f1.trans hen) (f2.trans hg) hd2 hrect2]
    unfold chromeAfter
    rw [f3]
    have hnot : ¬ currentDelta (scrollRun FuzzyEqual v (first :: mid)).m last.1
        > v.m.mChromeGestureThreshold := by
      intro h
      linarith
    rw [if_neg hnot, if_pos hback]

/-- A concrete run of the thresholding: from the drag start 100 with
threshold 10 the reports 120, 119 and 100 hide the chrome and show it again. -/
theorem chrome_restored_from_held_drag_start_run :
    (scrollRun gfxFuzzyEqual draggedView [reportAt 120]).m.mChrome = false
      ∧ (scrollRun gfxFuzzyEqual draggedView
          (reportAt 120 :: [reportAt 119] ++ [reportAt 100])).m.mChrome = true :=
  chrome_restored_from_held_drag_start gfxFuzzyEqual draggedView (reportAt 120)
    [reportAt 119] (reportAt 100) rfl rfl (by decide) (by decide) (by decide)
    (by with_unfolding_all decide) (by with_unfolding_all decide)
    (by with_unfolding_all decide) (by with_unfolding_all decide)

/-- C6, the code at the failing input: from the drag start 100 with threshold
10, the report 120 is more than the threshold above the drag start and hides
the chrome; the next report 100 is 20, more than the threshold, back in the
opposite direction, and the chrome is still hidden after this last call,
the call having only moved the drag start to 100.  The same way back in
steps of one shows the chrome again at 107. -/
theorem C6_chrome_stays_hidden_after_one_report_back :
    draggedView.m.mEnabled = true ∧ draggedView.m.mChromeGestureEnabled = true
      ∧ 0 < draggedView.m.mChromeGestureThreshold ∧ 0 ≤ draggedView.m.mDragStartY
      ∧ reportedOffset draggedView.m (reportAt 120).1 - draggedView.m.mDragStartY
          > draggedView.m.mChromeGestureThreshold
      ∧ (scrollRun gfxFuzzyEqual draggedView [reportAt 120]).m.mChrome = false
      ∧ reportedOffset draggedView.m (reportAt 120).1
            - reportedOffset draggedView.m (reportAt 100).1
          > draggedView.m.mChromeGestureThreshold
      ∧ (scrollRun gfxFuzzyEqual draggedView [reportAt 120, reportAt 100]).m.mChrome = false
      ∧ (scrollRun gfxFuzzyEqual draggedView [reportAt 120, reportAt 100]).m.mDragStartY = 100
      ∧ (scrollRun gfxFuzzyEqual draggedView
          [reportAt 120, reportAt 119, reportAt 118, reportAt 117, reportAt 116, reportAt 115,
           reportAt 114, reportAt 113, reportAt 112, reportAt 111, reportAt 110, reportAt 109,
           reportAt 108, reportAt 107]).m.mChrome = true := by
  refine ⟨rfl, rfl, ?_, ?_, ?_, ?_, ?_, ?_, ?_, ?_⟩ <;> with_unfolding_all decide

/-! ## The flick decision -/

/-- At a touch end with one point away from the origin the flick decision is
the comparison of both time differences with the threshold, and the last
stationary position is cleared. -/
theorem TestFlickingMode_touchEnd (v : View) (event : QTouchEvent) (pt : TouchPoint)
    (ht : event.type = EventType.TouchEnd) (hp : event.touchPoints = [pt])
    (hn : pt.pos.isNull = false) :
    ((TestFlickingMode v event).m.mCanFlick = true
        ↔ event.timestamp - v.m.mLastTimestamp < 200
          ∧ event.timestamp - v.m.mLastStationaryTimestamp < 200)
      ∧ (TestFlickingMode v event).m.mLastStationaryPos = QPointF.null := by
  unfold TestFlickingMode
  simp [ht, hp, QTouchEvent.at, hn, current_timestamp, MOZVIEW_FLICK_THRESHOLD]

/-- At a touch end with one point at the origin nothing but `mLastPos` is
written. -/
theorem TestFlickingMode_touchEnd_origin (v : View) (event : QTouchEvent) (pt : TouchPoint)
    (hp : event.touchPoints = [pt]) (hn : pt.pos.isNull = true) :
    (TestFlickingMode v event).m = { v.m with mLastPos := pt.pos } := by
  unfold TestFlickingMode
  simp [hp, QTouchEvent.at, hn]

/-- For an event that does not carry exactly one point the flick members are
left alone. -/
theorem TestFlickingMode_not_single (v : View) (event : QTouchEvent)
    (h : event.touchPoints.length ≠ 1) :
    (TestFlickingMode v event).m = { v.m with mLastPos := QPointF.null } := by
  unfold TestFlickingMode
  simp [h, QPointF.null, QPointF.isNull]

/-- C7, the code at the failing input: after a press at time 1000 and a
stationary update at time 1050, a release at time 1100 at the origin (one
point, both time differences 50, below the threshold 200) leaves `mCanFlick`
false and the last stationary position `(5, 5)` in place. -/
theorem C7_flick_test_skipped_at_origin :
    releaseAtOrigin.type = EventType.TouchEnd
      ∧ releaseAtOrigin.touchPoints.length = 1
      ∧ releaseAtOrigin.timestamp - pressedAndHeld.m.mLastTimestamp = 50
      ∧ releaseAtOrigin.timestamp - pressedAndHeld.m.mLastStationaryTimestamp = 50
      ∧ (TestFlickingMode pressedAndHeld releaseAtOrigin).m.mCanFlick = false
      ∧ (TestFlickingMode pressedAndHeld releaseAtOrigin).m.mLastStationaryPos = ⟨5, 5⟩
      ∧ (touchEvent pressedAndHeld releaseAtOrigin).m.mCanFlick = false := by
  refine ⟨rfl, rfl, ?_, ?_, ?_, ?_, ?_⟩ <;> with_unfolding_all decide

/-! ## Members each block leaves alone -/

theorem TestFlickingMode_frame (v : View) (event : QTouchEvent) :
    ∃ (a b : Int) (c : Bool) (d e : QPointF),
      (TestFlickingMode v event).m
        = { v.m with mLastTimestamp := a, mLastStationaryTimestamp := b, mCanFlick := c,
                     mLastStationaryPos := d, mLastPos := e } := by
  unfold TestFlickingMode flickOnUpdate
  simp only
  split_ifs <;> exact ⟨_, _, _, _, _, rfl⟩

theorem routePoint_frame (s : View × TouchInputs) (pt : TouchPoint) :
    ∃ a, (routePoint s pt).1.m = { s.1.m with mActiveTouchPoints := a } := by
  unfold routePoint
  cases pt.state <;> exact ⟨_, rfl⟩

theorem foldl_routePoint_frame (pts : List TouchPoint) (s : View × TouchInputs) :
    ∃ a, (pts.foldl routePoint s).1.m = { s.1.m with mActiveTouchPoints := a } := by
  induction pts generalizing s with
  | nil => exact ⟨_, rfl⟩
  | cons pt rest ih =>
    obtain ⟨a, ha⟩ := ih (routePoint s pt)
    obtain ⟨b, hb⟩ := routePoint_frame s pt
    exact ⟨a, by rw [List.foldl_cons, ha, hb]⟩

theorem buildInputs_frame (v : View) (event : QTouchEvent) :
    ∃ a, (buildInputs v event).1.m = { v.m with mActiveTouchPoints := a } := by
  unfold buildInputs
  obtain ⟨a, ha⟩ := foldl_routePoint_frame event.touchPoints
    (cancelBlock v event (TouchInputs.init (current_timestamp event)))
  refine ⟨a, ?_⟩
  rw [ha]
  unfold cancelBlock
  split_ifs <;> rfl

/-- The members on which the last block of `touchEvent` works: those after the
first block and the flick test, but for the active touch points. -/
theorem sent_frame (v : View) (event : QTouchEvent) :
    ∃ a, (sendInputs (buildInputs (beforeInputs v event) event).1
            (buildInputs (beforeInputs v event) event).2).m
          = { (beforeInputs v event).m with mActiveTouchPoints := a } := by
  rw [sendInputs_m]
  exact buildInputs_frame _ _

theorem sendIf_kind (c : Prop) [Decidable c] (v w : View) (i : MultiTouchInput)
    (l : List Call) (h : w.calls = v.calls ++ l) (hk : ∀ x ∈ l, x.isInput = true) :
    ∃ l2, (if c then ReceiveInputEvent w i else w).calls = v.calls ++ l2
      ∧ ∀ x ∈ l2, x.isInput = true := by
  by_cases hc : c
  · rw [if_pos hc, ReceiveInputEvent_calls, h]
    refine ⟨l ++ Call.ReceiveInputEvent i
      :: (if w.m.mViewInitialized = true then [Call.viewReceiveInputEvent i] else []),
      by simp, ?_⟩
    intro x hx
    rcases List.mem_append.mp hx with hx | hx
    · exact hk x hx
    · rcases List.mem_cons.mp hx with hx | hx
      · rw [hx]; rfl
      · split_ifs at hx
        · rw [List.mem_singleton.mp hx]; rfl
        · simp at hx
  · rw [if_neg hc]
    exact ⟨l, h, hk⟩

theorem sendInputs_kind (v : View) (t : TouchInputs) :
    ∀ x ∈ newCalls v (sendInputs v t), x.isInput = true := by
  obtain ⟨l1, h1, k1⟩ := sendIf_kind (t.meventStart.mTouches.length ≠ 0) v v
    (if t.meventMove.mTouches.length ≠ 0 then
        { t.meventStart with mTouches := t.meventStart.mTouches ++ t.meventMove.mTouches }
      else t.meventStart) [] (by simp) (by simp)
  obtain ⟨l2, h2, k2⟩ := sendIf_kind (t.meventMove.mTouches.length ≠ 0) v _ t.meventMove l1 h1 k1
  obtain ⟨l3, h3, k3⟩ := sendIf_kind (t.meventEnd.mTouches.length ≠ 0) v _ t.meventEnd l2 h2 k2
  have h : (sendInputs v t).calls = v.calls ++ l3 := h3
  rw [newCalls_append v _ _ h]
  exact k3

/-- The calls of one `touchEvent`: those of the first block, those handing
over inputs, those of the last block. -/
theorem touchEvent_calls (v : View) (event : QTouchEvent) :
    ∃ l, (∀ x ∈ l, x.isInput = true)
      ∧ newCalls v (touchEvent v event)
        = dispatchCalls v.m event ++ l
          ++ finishCalls (sendInputs (buildInputs (beforeInputs v event) event).1
              (buildInputs (beforeInputs v event) event).2).m event
            (touchDispatch
              (View.emit { v with m := { v.m with mPendingTouchEvent := true } }
                (Call.setAccepted true)) event).draggingChanged
            (touchDispatch
              (View.emit { v with m := { v.m with mPendingTouchEvent := true } }
                (Call.setAccepted true)) event).pinchingChanged := by
  obtain ⟨l, hl, _⟩ := sendInputs_extends (buildInputs (beforeInputs v event) event).1
    (buildInputs (beforeInputs v event) event).2
  have hk := sendInputs_kind (buildInputs (beforeInputs v event) event).1
    (buildInputs (beforeInputs v event) event).2
  rw [newCalls_append _ _ _ hl] at hk
  refine ⟨l, hk, newCalls_append v _ _ ?_⟩
  rw [touchEvent_eq, touchFinish_calls, hl, buildInputs_calls, beforeInputs_calls]
  simp

theorem count_of_isInput (l : List Call) (h : ∀ x ∈ l, x.isInput = true) (c : Call)
    (hc : c.isInput = false) : l.count c = 0 := by
  apply List.count_eq_zero.mpr
  intro hmem
  rw [h c hmem] at hc
  exact Bool.noConfusion hc

theorem touchFinish_m (v : View) (event : QTouchEvent) (dc pc : Bool) :
    (touchFinish v event dc pc).m
      = if event.type = EventType.TouchEnd then
          (if v.m.mCanFlick = true then { v.m with mMoving := true }
           else
            { v.m with
              mDragStartY := -1, mMoveDelta := 0, mFlicking := false, mMoving := false,
              mVerticalScrollDecorator := { v.m.mVerticalScrollDecorator with moving := false },
              mHorizontalScrollDecorator :=
                { v.m.mHorizontalScrollDecorator with moving := false } })
        else { v.m with mMoving := v.m.mDragging } := by
  unfold touchFinish
  simp only
  cases dc <;> cases pc <;> split_ifs <;> simp_all [UpdateMoving_m, ResetState_m]

/-! ## Pinching -/

theorem touchDispatch_pinching (w : View) (event : QTouchEvent) :
    (touchDispatch w event).v.m.mPinching = pinchingAfter w.m.mPinching event
      ∧ (touchDispatch w event).pinchingChanged
          = decide (pinchingAfter w.m.mPinching event ≠ w.m.mPinching) := by
  unfold touchDispatch pinchingAfter
  cases ht : event.type <;> simp only [reduceCtorEq, if_false, if_true, or_false, or_true,
    false_or, true_or, or_self]
  · rw [ResetState_m]
    cases hp : w.m.mPinching <;> by_cases hl : 1 < event.touchPoints.length <;>
      simp [hp, hl]
  · cases hp : w.m.mPinching <;> cases hd : w.m.mDragging <;>
      by_cases hl : 1 < event.touchPoints.length <;> simp [hp, hd, hl]
  · rw [HandleTouchEnd_m]
    unfold HandleTouchEnd
    cases hp : w.m.mPinching <;> cases hd : w.m.mDragging <;> simp [hp, hd]
  · simp only [HandleTouchEnd_m]
    unfold HandleTouchEnd
    cases hp : w.m.mPinching <;> cases hd : w.m.mDragging <;> simp [hp, hd]
  · simp

theorem beforeInputs_pinching (v : View) (event : QTouchEvent) :
    (beforeInputs v event).m.mPinching = pinchingAfter v.m.mPinching event := by
  unfold beforeInputs
  simp only
  split_ifs
  · obtain ⟨a, b, c, d, e, h⟩ := TestFlickingMode_frame
      (touchDispatch
        (View.emit { v with m := { v.m with mPendingTouchEvent := true } }
          (Call.setAccepted true)) event).v event
    rw [h]
    exact (touchDispatch_pinching _ event).1
  · exact (touchDispatch_pinching _ event).1

theorem touchEvent_pinching (v : View) (event : QTouchEvent) :
    (touchEvent v event).m.mPinching = pinchingAfter v.m.mPinching event := by
  obtain ⟨a, ha⟩ := sent_frame v event
  rw [touchEvent_eq, touchFinish_m, ha, ← beforeInputs_pinching]
  split_ifs <;> rfl

/-- C8: after `touchEvent` the pinching state is on for a TouchBegin or
TouchUpdate that carries more than one point or found it on (neither switches
it off, whatever the number of points), off for a TouchEnd or TouchCancel,
and unchanged otherwise; `pinchingChanged` is sent once when the call changed
`mPinching` and not at all when it did not. -/
theorem C8_pinching_kept_until_touch_end (v : View) (event : QTouchEvent) :
    (touchEvent v event).m.mPinching
        = (if event.type = EventType.TouchBegin ∨ event.type = EventType.TouchUpdate then
            v.m.mPinching || decide (1 < event.touchPoints.length)
           else if event.type = EventType.TouchEnd ∨ event.type = EventType.TouchCancel then
            false
           else v.m.mPinching)
      ∧ (newCalls v (touchEvent v event)).count Call.pinchingChanged
          = (if (touchEvent v event).m.mPinching = v.m.mPinching then 0 else 1) := by
  refine ⟨touchEvent_pinching v event, ?_⟩
  obtain ⟨l, hk, hcalls⟩ := touchEvent_calls v event
  rw [hcalls, touchEvent_pinching, (touchDispatch_pinching _ event).2]
  simp only [List.count_append, count_of_isInput l hk Call.pinchingChanged rfl]
  have hd : (dispatchCalls v.m event).count Call.pinchingChanged = 0 := by
    unfold dispatchCalls
    split_ifs <;> simp
  rw [hd]
  unfold finishCalls
  simp only [emit_m, List.count_append]
  by_cases hp : pinchingAfter v.m.mPinching event = v.m.mPinching
  · simp [hp]
    split_ifs <;> simp
  · simp [hp]
    split_ifs <;> simp

/-! ## Touch end -/

theorem beforeInputs_touchEnd (v : View) (event : QTouchEvent)
    (ht : event.type = EventType.TouchEnd) :
    ∃ (a b : Int) (c : Bool) (d e : QPointF),
      (beforeInputs v event).m
        = { v.m with
            mPendingTouchEvent := true, mDragging := false, mPinching := false,
            mLastTimestamp := a, mLastStationaryTimestamp := b, mCanFlick := c,
            mLastStationaryPos := d, mLastPos := e } := by
  have hd : ∀ w : View, touchDispatch w event
      = ⟨(HandleTouchEnd w false false).1, (HandleTouchEnd w false false).2.1,
          (HandleTouchEnd w false false).2.2, true⟩ := by
    intro w
    unfold touchDispatch
    simp [ht]
  unfold beforeInputs
  simp only [hd, if_true]
  obtain ⟨a, b, c, d, e, h⟩ := TestFlickingMode_frame
    (HandleTouchEnd
      (View.emit { v with m := { v.m with mPendingTouchEvent := true } }
        (Call.setAccepted true)) false false).1 event
  rw [h, HandleTouchEnd_m]
  exact ⟨a, b, c, d, e, rfl⟩

/-- C10: after `touchEvent` has handled a TouchEnd, `mDragging` and
`mPinching` are false; when `mCanFlick` is false the drag start is `-1`, the
move delta `0`, `mFlicking` and `mMoving` are false and both scroll
decorators are set not moving; when `mCanFlick` is true `mMoving` is true,
`startMoveMonitoring` has been called and drag start and move delta are as
before the call; `movingChanged` is sent once when `mMoving` changed and not
at all when it did not. -/
theorem C10_touch_end_to_clean_state_unless_flick (v : View) (event : QTouchEvent)
    (ht : event.type = EventType.TouchEnd) :
    (touchEvent v event).m.mDragging = false
      ∧ (touchEvent v event).m.mPinching = false
      ∧ (if (touchEvent v event).m.mCanFlick = true then
          (touchEvent v event).m.mMoving = true
            ∧ Call.startMoveMonitoring ∈ newCalls v (touchEvent v event)
            ∧ (touchEvent v event).m.mDragStartY = v.m.mDragStartY
            ∧ (touchEvent v event).m.mMoveDelta = v.m.mMoveDelta
         else
          (touchEvent v event).m.mDragStartY = -1
            ∧ (touchEvent v event).m.mMoveDelta = 0
            ∧ (touchEvent v event).m.mFlicking = false
            ∧ (touchEvent v event).m.mMoving = false
            ∧ (touchEvent v event).m.mVerticalScrollDecorator.moving = false
            ∧ (touchEvent v event).m.mHorizontalScrollDecorator.moving = false)
      ∧ (newCalls v (touchEvent v event)).count Call.movingChanged
          = (if (touchEvent v event).m.mMoving = v.m.mMoving then 0 else 1) := by
  obtain ⟨l, hk, hcalls⟩ := touchEvent_calls v event
  obtain ⟨q, hq⟩ := sent_frame v event
  obtain ⟨a, b, c, d, e, hb⟩ := beforeInputs_touchEnd v event ht
  have hm : (touchEvent v event).m
      = if c = true then
          { v.m with
            mPendingTouchEvent := true, mDragging := false, mPinching := false,
            mLastTimestamp := a, mLastStationaryTimestamp := b, mCanFlick := c,
            mLastStationaryPos := d, mLastPos := e, mActiveTouchPoints := q,
            mMoving := true }
        else
          { v.m with
            mPendingTouchEvent := true, mDragging := false, mPinching := false,
            mLastTimestamp := a, mLastStationaryTimestamp := b, mCanFlick := c,
            mLastStationaryPos := d, mLastPos := e, mActiveTouchPoints := q,
            mDragStartY := -1, mMoveDelta := 0, mFlicking := false, mMoving := false,
            mVerticalScrollDecorator := { v.m.mVerticalScrollDecorator with moving := false },
            mHorizontalScrollDecorator :=
              { v.m.mHorizontalScrollDecorator with moving := false } } := by
    rw [touchEvent_eq, touchFinish_m, hq, hb]
    simp only [ht, if_true]
  have hcount : (newCalls v (touchEvent v event)).count Call.movingChanged
      = if c = true then (if v.m.mMoving = true then 0 else 1)
        else (if v.m.mMoving = true then 1 else 0) := by
    rw [hcalls, hq, hb]
    simp only [List.count_append, count_of_isInput l hk Call.movingChanged rfl]
    unfold dispatchCalls finishCalls
    simp only [ht, reduceCtorEq, if_false, if_true]
    cases c <;> cases v.m.mMoving <;> simp <;> split_ifs <;> simp
  have hstart : c = true → Call.startMoveMonitoring ∈ newCalls v (touchEvent v event) := by
    intro hc
    rw [hcalls, hq, hb]
    unfold finishCalls
    simp [ht, hc]
  rw [hcount, hm]
  cases c
  · cases hmv : v.m.mMoving <;> simp
  · cases hmv : v.m.mMoving <;> simp [hstart rfl]

/-- A concrete run of C10: a release 10 ms after the last update is a flick,
the view keeps moving and the move monitoring is started. -/
theorem C10_witness :
    quickRelease.type = EventType.TouchEnd
      ∧ (touchEvent pressedAndHeld quickRelease).m.mCanFlick = true
      ∧ (touchEvent pressedAndHeld quickRelease).m.mDragging = false
      ∧ (touchEvent pressedAndHeld quickRelease).m.mMoving = true :=
  have h := C10_touch_end_to_clean_state_unless_flick pressedAndHeld quickRelease rfl
  ⟨rfl, by with_unfolding_all decide, h.1, by with_unfolding_all decide⟩

/-! ## The first block of a press and of an update -/

theorem touchDispatch_touchUpdate (w : View) (event : QTouchEvent)
    (ht : event.type = EventType.TouchUpdate) :
    (∃ p, (touchDispatch w event).v.m
        = { w.m with
            mDragging := true,
            mDragStartY :=
              if w.m.mDragging = true then w.m.mDragStartY
              else w.m.mContentRect.yp * w.m.mContentResolution,
            mMoveDelta := if w.m.mDragging = true then w.m.mMoveDelta else 0,
            mPinching := p })
      ∧ (touchDispatch w event).draggingChanged = !w.m.mDragging
      ∧ (touchDispatch w event).testFlick = true := by
  obtain ⟨m, tr⟩ := w
  cases m
  unfold touchDispatch
  simp only [ht, reduceCtorEq, if_false, if_true]
  refine ⟨?_, by trivial, by trivial⟩
  split_ifs <;> simp_all

theorem touchDispatch_touchBegin (w : View) (event : QTouchEvent)
    (ht : event.type = EventType.TouchBegin) :
    (∃ p, (touchDispatch w event).v.m
        = { w.m with
            mPinching := p, mDragStartY := -1, mMoveDelta := 0, mFlicking := false,
            mMoving := false,
            mVerticalScrollDecorator := { w.m.mVerticalScrollDecorator with moving := false },
            mHorizontalScrollDecorator :=
              { w.m.mHorizontalScrollDecorator with moving := false } })
      ∧ (touchDispatch w event).draggingChanged = false
      ∧ (touchDispatch w event).testFlick = true := by
  unfold touchDispatch
  simp only [ht, reduceCtorEq, if_false, if_true]
  refine ⟨?_, by trivial, by trivial⟩
  rw [ResetState_m]
  split_ifs
  · exact ⟨true, rfl⟩
  · exact ⟨w.m.mPinching, rfl⟩

theorem beforeInputs_of_testFlick (v : View) (event : QTouchEvent)
    (h : (touchDispatch
        (View.emit { v with m := { v.m with mPendingTouchEvent := true } }
          (Call.setAccepted true)) event).testFlick = true) :
    ∃ (a b : Int) (c : Bool) (d e : QPointF),
      (beforeInputs v event).m
        = { (touchDispatch
              (View.emit { v with m := { v.m with mPendingTouchEvent := true } }
                (Call.setAccepted true)) event).v.m with
            mLastTimestamp := a, mLastStationaryTimestamp := b, mCanFlick := c,
            mLastStationaryPos := d, mLastPos := e } := by
  unfold beforeInputs
  simp only [h, if_true]
  exact TestFlickingMode_frame _ event

/-! ## Reports outside a drag -/

theorem contentRectBlock_drag_invalid (v : View) (r : QRectF) (h : v.m.mDragStartY < 0) :
    (contentRectBlock v r).m.mChrome = v.m.mChrome
      ∧ (contentRectBlock v r).m.mDragStartY = v.m.mDragStartY
      ∧ (contentRectBlock v r).m.mMoveDelta = v.m.mMoveDelta
      ∧ (contentRectBlock v r).calls
          = v.calls ++ (if v.m.mContentRect = r then [] else [Call.viewAreaChanged]) := by
  unfold contentRectBlock
  simp only
  by_cases hrect : v.m.mContentRect = r
  · have hne := (not_congr (rect_ne_iff v.m.mContentRect r)).mpr (not_not.mpr hrect)
    rw [if_neg hne, if_pos hrect]
    simp
  · have hne := (rect_ne_iff v.m.mContentRect r).mpr hrect
    rw [if_pos hne, if_neg hrect, chromeGesture_off]
    · simp
    · simp only [emit_m, not_and, not_le]
      intro _ _
      exact h

theorem SendAsyncScrollDOMEvent_drag_invalid (FuzzyEqual : Rat → Rat → Rat → Bool) (v : View)
    (r : QRectF) (sz : QSizeF) (h : v.m.mDragStartY < 0) :
    (SendAsyncScrollDOMEvent FuzzyEqual v r sz).m.mChrome = v.m.mChrome
      ∧ (SendAsyncScrollDOMEvent FuzzyEqual v r sz).m.mDragStartY = v.m.mDragStartY
      ∧ ∃ l, (SendAsyncScrollDOMEvent FuzzyEqual v r sz).calls = v.calls ++ l
          ∧ l.count Call.chromeChanged = 0 := by
  obtain ⟨c1, c2, _, l, hl, hcount⟩ := SendAsyncScrollDOMEvent_chrome FuzzyEqual v r sz
  obtain ⟨b1, b2, _, b4⟩ := contentRectBlock_drag_invalid v r h
  refine ⟨c1.trans b1, c2.trans b2, _, by rw [hl, b4, List.append_assoc], ?_⟩
  rw [List.count_append, hcount]
  split_ifs <;> simp

theorem scrollRun_drag_invalid (FuzzyEqual : Rat → Rat → Rat → Bool)
    (reports : List (QRectF × QSizeF)) (v : View) (h : v.m.mDragStartY < 0) :
    (scrollRun FuzzyEqual v reports).m.mChrome = v.m.mChrome
      ∧ (scrollRun FuzzyEqual v reports).m.mDragStartY = v.m.mDragStartY
      ∧ ∃ l, (scrollRun FuzzyEqual v reports).calls = v.calls ++ l
          ∧ l.count Call.chromeChanged = 0 := by
  induction reports generalizing v with
  | nil => exact ⟨rfl, rfl, [], by simp [scrollRun], rfl⟩
  | cons r rest ih =>
    obtain ⟨h1, h2, l1, hl1, hc1⟩ := SendAsyncScrollDOMEvent_drag_invalid FuzzyEqual v r.1 r.2 h
    obtain ⟨g1, g2, l2, hl2, hc2⟩ := ih (SendAsyncScrollDOMEvent FuzzyEqual v r.1 r.2)
      (by rw [h2]; exact h)
    refine ⟨g1.trans h1, g2.trans h2, l1 ++ l2, ?_, ?_⟩
    · show (scrollRun FuzzyEqual (SendAsyncScrollDOMEvent FuzzyEqual v r.1 r.2) rest).calls = _
      rw [hl2, hl1, List.append_assoc]
    · rw [List.count_append, hc1, hc2]

/-! ## Drag tracking -/

/-- C11: a TouchUpdate leaves `mDragging` true; when the drag was not yet on
it sets `mDragStartY` to `mContentRect.y * mContentResolution` and
`mMoveDelta` to `0` and sends `draggingChanged` once, and when the drag was
already on it leaves both as they were and does not send `draggingChanged`.
A TouchBegin leaves `mDragStartY` at `-1`, and the scroll reports that follow
it neither change `mChrome` nor the drag start nor send `chromeChanged`. -/
theorem C11_drag_tracking (FuzzyEqual : Rat → Rat → Rat → Bool) (v : View)
    (update press : QTouchEvent) (reports : List (QRectF × QSizeF))
    (hu : update.type = EventType.TouchUpdate) (hp : press.type = EventType.TouchBegin) :
    (touchEvent v update).m.mDragging = true
      ∧ (touchEvent v update).m.mDragStartY
          = (if v.m.mDragging = true then v.m.mDragStartY
             else v.m.mContentRect.yp * v.m.mContentResolution)
      ∧ (touchEvent v update).m.mMoveDelta
          = (if v.m.mDragging = true then v.m.mMoveDelta else 0)
      ∧ (newCalls v (touchEvent v update)).count Call.draggingChanged
          = (if v.m.mDragging = true then 0 else 1)
      ∧ (touchEvent v press).m.mDragStartY = -1
      ∧ (scrollRun FuzzyEqual (touchEvent v press) reports).m.mChrome
          = (touchEvent v press).m.mChrome
      ∧ (scrollRun FuzzyEqual (touchEvent v press) reports).m.mDragStartY = -1
      ∧ Call.chromeChanged
          ∉ newCalls (touchEvent v press) (scrollRun FuzzyEqual (touchEvent v press) reports) := by
  have hne : ∀ t : EventType, t = EventType.TouchUpdate ∨ t = EventType.TouchBegin →
      ¬ t = EventType.TouchEnd := by
    intro t ht
    rcases ht with ht | ht <;> rw [ht] <;> simp
  -- the update
  obtain ⟨⟨p, hd⟩, hdc, htf⟩ := touchDispatch_touchUpdate
    (View.emit { v with m := { v.m with mPendingTouchEvent := true } } (Call.setAccepted true))
    update hu
  obtain ⟨a, b, c, d, e, hb⟩ := beforeInputs_of_testFlick v update htf
  obtain ⟨q, hq⟩ := sent_frame v update
  have hmu : (touchEvent v update).m
      = { v.m with
          mPendingTouchEvent := true, mDragging := true,
          mDragStartY :=
            if v.m.mDragging = true then v.m.mDragStartY
            else v.m.mContentRect.yp * v.m.mContentResolution,
          mMoveDelta := if v.m.mDragging = true then v.m.mMoveDelta else 0,
          mPinching := p, mLastTimestamp := a, mLastStationaryTimestamp := b, mCanFlick := c,
          mLastStationaryPos := d, mLastPos := e, mActiveTouchPoints := q, mMoving := true } := by
    rw [touchEvent_eq, touchFinish_m, hq, hb, hd, if_neg (hne _ (Or.inl hu))]
    rfl
  obtain ⟨l, hk, hcalls⟩ := touchEvent_calls v update
  have hcount : (newCalls v (touchEvent v update)).count Call.draggingChanged
      = if v.m.mDragging = true then 0 else 1 := by
    rw [hcalls, hdc]
    simp only [List.count_append, count_of_isInput l hk Call.draggingChanged rfl]
    unfold dispatchCalls finishCalls
    simp only [hu, reduceCtorEq, if_false, emit_m]
    cases v.m.mDragging <;> simp <;> split_ifs <;> simp
  -- the press
  obtain ⟨⟨p2, hd2⟩, _, htf2⟩ := touchDispatch_touchBegin
    (View.emit { v with m := { v.m with mPendingTouchEvent := true } } (Call.setAccepted true))
    press hp
  obtain ⟨a2, b2, c2, d2, e2, hb2⟩ := beforeInputs_of_testFlick v press htf2
  obtain ⟨q2, hq2⟩ := sent_frame v press
  have hmp : (touchEvent v press).m.mDragStartY = -1 := by
    rw [touchEvent_eq, touchFinish_m, hq2, hb2, hd2, if_neg (hne _ (Or.inr hp))]
  have hneg : (touchEvent v press).m.mDragStartY < 0 := by
    rw [hmp]
    norm_num
  obtain ⟨r1, r2, l2, hl2, hc2⟩ :=
    scrollRun_drag_invalid FuzzyEqual reports (touchEvent v press) hneg
  refine ⟨by rw [hmu], by rw [hmu], by rw [hmu], hcount, hmp, r1, r2.trans hmp, ?_⟩
  rw [newCalls_append _ _ _ hl2]
  exact List.count_eq_zero.mp hc2


/-- A concrete run of C11: the first update of a view at rest at offset 100
starts the drag there, and a report after a press leaves the chrome shown. -/
theorem C11_witness :
    moveEvent.type = EventType.TouchUpdate ∧ pressEvent.type = EventType.TouchBegin
      ∧ (touchEvent restingView moveEvent).m.mDragStartY = 100
      ∧ (newCalls restingView (touchEvent restingView moveEvent)).count Call.draggingChanged = 1
      ∧ (scrollRun gfxFuzzyEqual (touchEvent restingView pressEvent) [reportAt 130]).m.mChrome
          = true :=
  have h := C11_drag_tracking gfxFuzzyEqual restingView moveEvent pressEvent [reportAt 130]
    rfl rfl
  ⟨rfl, rfl, h.2.1.trans (by with_unfolding_all decide),
    h.2.2.2.1.trans (by with_unfolding_all decide),
    h.2.2.2.2.2.1.trans (by with_unfolding_all decide)⟩

/-! ## The contents node of the scene graph node -/

/-- After `setRenderer` the node has its contents node as only child, and it
wraps the renderer. -/
theorem setRenderer_one_child (n : QMozViewSGNode) (p : Nat) (hinv : n.Inv) :
    ∃ c, (n.setRenderer p).m_contentsNode = some c ∧ (n.setRenderer p).children = [c]
      ∧ c.mPrivate = p := by
  obtain ⟨mc, ch, al, ops⟩ := n
  unfold QMozViewSGNode.Inv at hinv
  simp only at hinv
  subst hinv
  cases mc with
  | none =>
    exact ⟨⟨al, p⟩, rfl, rfl, rfl⟩
  | some c =>
    unfold QMozViewSGNode.setRenderer
    simp only
    split_ifs with h
    · exact ⟨c, rfl, rfl, h⟩
    · refine ⟨⟨al, p⟩, rfl, ?_, rfl⟩
      simp [QMozViewSGNode.appendChildNode, QMozViewSGNode.newContentNode,
        QMozViewSGNode.deleteNode, QMozViewSGNode.removeChildNode]

theorem setRenderer_inv (n : QMozViewSGNode) (p : Nat) (hinv : n.Inv) :
    (n.setRenderer p).Inv := by
  obtain ⟨c, h1, h2, _⟩ := setRenderer_one_child n p hinv
  unfold QMozViewSGNode.Inv
  rw [h1, h2]
  rfl

theorem setRenderers_inv (renderers : List Nat) (n : QMozViewSGNode) (hinv : n.Inv) :
    (n.setRenderers renderers).Inv := by
  induction renderers generalizing n with
  | nil => exact hinv
  | cons p rest ih => exact ih (n.setRenderer p) (setRenderer_inv n p hinv)

theorem setRenderers_snoc (renderers : List Nat) (p : Nat) (n : QMozViewSGNode) :
    n.setRenderers (renderers ++ [p]) = (n.setRenderers renderers).setRenderer p := by
  simp [QMozViewSGNode.setRenderers, List.foldl_append]

/-- What `setRenderer` does: nothing when the contents node wraps the
renderer already, otherwise the removal and deletion of the old contents
node, if any, and then the making and appending of the new one. -/
theorem setRenderer_ops (n : QMozViewSGNode) (p : Nat) :
    if n.m_contentsNode.map MozContentSGNode.getPrivate = some p then n.setRenderer p = n
    else
      (n.setRenderer p).ops
          = n.ops
            ++ (match n.m_contentsNode with
                | some c => [SGOp.removeChildNode c.addr, SGOp.deleteNode c.addr]
                | none => [])
            ++ [SGOp.SetIsActive p true, SGOp.appendChildNode n.allocated]
        ∧ (n.setRenderer p).m_contentsNode = some ⟨n.allocated, p⟩ := by
  obtain ⟨mc, ch, al, ops⟩ := n
  cases mc with
  | none =>
    simp [QMozViewSGNode.setRenderer, QMozViewSGNode.appendChildNode,
      QMozViewSGNode.newContentNode]
  | some c =>
    by_cases h : c.getPrivate = p
    · simp [QMozViewSGNode.setRenderer, h]
    · simp [QMozViewSGNode.setRenderer, h, QMozViewSGNode.appendChildNode,
        QMozViewSGNode.newContentNode, QMozViewSGNode.deleteNode,
        QMozViewSGNode.removeChildNode]

/-- C12: after `setRenderer(p)` on a node whose contents children are its
`m_contentsNode`, the node has exactly one contents child, its
`m_contentsNode`, wrapping `p`.  When the contents node wrapped `p` already
the call changes nothing; otherwise it removes and deletes the old contents
node, if any, then makes the new node (activating the engine view) and
appends it.  After any run of calls from the constructed node that ends with
`setRenderer(p)` the node has exactly one contents child, wrapping `p`. -/
theorem C12_one_contents_child_for_last_renderer (n : QMozViewSGNode) (p : Nat)
    (renderers : List Nat) (hinv : n.Inv) :
    (∃ c, (n.setRenderer p).m_contentsNode = some c ∧ (n.setRenderer p).children = [c]
        ∧ c.mPrivate = p)
      ∧ (if n.m_contentsNode.map MozContentSGNode.getPrivate = some p then
          n.setRenderer p = n
         else
          (n.setRenderer p).ops
              = n.ops
                ++ (match n.m_contentsNode with
                    | some c => [SGOp.removeChildNode c.addr, SGOp.deleteNode c.addr]
                    | none => [])
                ++ [SGOp.SetIsActive p true, SGOp.appendChildNode n.allocated]
            ∧ (n.setRenderer p).m_contentsNode = some ⟨n.allocated, p⟩)
      ∧ ∃ c, (QMozViewSGNode.constructed.setRenderers (renderers ++ [p])).m_contentsNode = some c
          ∧ (QMozViewSGNode.constructed.setRenderers (renderers ++ [p])).children = [c]
          ∧ c.mPrivate = p := by
  refine ⟨setRenderer_one_child n p hinv, setRenderer_ops n p, ?_⟩
  rw [setRenderers_snoc]
  exact setRenderer_one_child _ p (setRenderers_inv renderers _ rfl)

/-- A concrete run of C12: a second renderer replaces the node of the first. -/
theorem C12_witness :
    (QMozViewSGNode.constructed.setRenderer 7).Inv
      ∧ ((QMozViewSGNode.constructed.setRenderer 7).setRenderer 9).children = [⟨1, 9⟩]
      ∧ ((QMozViewSGNode.constructed.setRenderer 7).setRenderer 9).ops
          = [SGOp.SetIsActive 7 true, SGOp.appendChildNode 0, SGOp.removeChildNode 0,
             SGOp.deleteNode 0, SGOp.SetIsActive 9 true, SGOp.appendChildNode 1] :=
  have h := C12_one_contents_child_for_last_renderer
    (QMozViewSGNode.constructed.setRenderer 7) 9 [7] (by decide)
  ⟨by decide, by decide, (h.2.1).1.trans (by decide)⟩


/-! ## Load state -/

theorem ResetPainted_load (v : View) :
    (ResetPainted v).m.mIsLoading = v.m.mIsLoading
      ∧ (ResetPainted v).m.mProgress = v.m.mProgress
      ∧ (ResetPainted v).calls
          = v.calls ++ (if v.m.mIsPainted = true then [Call.firstPaint (-1) (-1)] else []) := by
  unfold ResetPainted
  split_ifs <;> simp

/-- What one load notification does to the loading flag, the progress and the
`loadingChanged` notification. -/
theorem loadStep_load (v : View) (c : LoadCall) :
    (loadStep v c).m.mIsLoading
        = (match c with
           | LoadCall.started => true
           | LoadCall.progress _ _ _ => v.m.mIsLoading
           | LoadCall.finished => false)
      ∧ (loadStep v c).m.mProgress
        = (match c with
           | LoadCall.started => if v.m.mIsLoading = true then v.m.mProgress else 1
           | LoadCall.progress a _ _ => if v.m.mIsLoading = true then a else v.m.mProgress
           | LoadCall.finished => if v.m.mIsLoading = true then 100 else v.m.mProgress)
      ∧ (newCalls v (loadStep v c)).count Call.loadingChanged
        = (if (loadStep v c).m.mIsLoading = v.m.mIsLoading then 0 else 1) := by
  obtain ⟨r1, r2, r3⟩ := ResetPainted_load v
  cases c with
  | started =>
    have hc : (OnLoadStarted v).calls
        = v.calls ++ ((if v.m.mIsPainted = true then [Call.firstPaint (-1) (-1)] else [])
            ++ (if v.m.mIsLoading = true then [] else [Call.loadingChanged])) := by
      unfold OnLoadStarted
      simp only [r1]
      cases hl : v.m.mIsLoading <;> simp [r3]
    have hm : (OnLoadStarted v).m.mIsLoading = true
        ∧ (OnLoadStarted v).m.mProgress = if v.m.mIsLoading = true then v.m.mProgress else 1 := by
      unfold OnLoadStarted
      simp only [r1]
      cases hl : v.m.mIsLoading <;> simp [r1, r2, hl]
    refine ⟨hm.1, hm.2, ?_⟩
    show (newCalls v (OnLoadStarted v)).count Call.loadingChanged = _
    rw [newCalls_append v _ _ hc]
    simp only [loadStep, hm.1]
    cases hl : v.m.mIsLoading <;> simp <;> split_ifs <;> simp
  | progress a b t =>
    have hc : (OnLoadProgress v a b t).calls
        = v.calls ++ (if v.m.mIsLoading = true then [Call.loadProgressChanged] else []) := by
      unfold OnLoadProgress
      split_ifs <;> simp
    have hm : (OnLoadProgress v a b t).m.mIsLoading = v.m.mIsLoading
        ∧ (OnLoadProgress v a b t).m.mProgress
            = if v.m.mIsLoading = true then a else v.m.mProgress := by
      unfold OnLoadProgress
      split_ifs <;> simp
    refine ⟨hm.1, hm.2, ?_⟩
    show (newCalls v (OnLoadProgress v a b t)).count Call.loadingChanged = _
    rw [newCalls_append v _ _ hc]
    simp only [loadStep, hm.1]
    split_ifs <;> simp
  | finished =>
    have hc : (OnLoadFinished v).calls
        = v.calls ++ (if v.m.mIsLoading = true then [Call.loadingChanged] else []) := by
      unfold OnLoadFinished
      split_ifs <;> simp
    have hm : (OnLoadFinished v).m.mIsLoading = false
        ∧ (OnLoadFinished v).m.mProgress
            = if v.m.mIsLoading = true then 100 else v.m.mProgress := by
      unfold OnLoadFinished
      cases hl : v.m.mIsLoading <;> simp [hl]
    refine ⟨hm.1, hm.2, ?_⟩
    show (newCalls v (OnLoadFinished v)).count Call.loadingChanged = _
    rw [newCalls_append v _ _ hc]
    simp only [loadStep, hm.1]
    cases hl : v.m.mIsLoading <;> simp

/-- The load invariant: an object that is not loading has progress 100, or
progress 0 without any `OnLoadStarted` so far. -/
theorem loadRun_invariant (rest pre : List LoadCall) (v : View)
    (h : v.m.mIsLoading = true ∨ v.m.mProgress = 100
      ∨ (v.m.mProgress = 0 ∧ LoadCall.started ∉ pre)) :
    (loadRun v rest).m.mIsLoading = true ∨ (loadRun v rest).m.mProgress = 100
      ∨ ((loadRun v rest).m.mProgress = 0 ∧ LoadCall.started ∉ pre ++ rest) := by
  induction rest generalizing pre v with
  | nil => simpa [loadRun] using h
  | cons c rest ih =>
    have hstep : (loadStep v c).m.mIsLoading = true ∨ (loadStep v c).m.mProgress = 100
        ∨ ((loadStep v c).m.mProgress = 0 ∧ LoadCall.started ∉ pre ++ [c]) := by
      obtain ⟨s1, s2, _⟩ := loadStep_load v c
      cases c with
      | started => exact Or.inl s1
      | progress a b t =>
        rcases h with h | h | h
        · exact Or.inl (s1.trans h)
        · cases hl : v.m.mIsLoading
          · right; left
            rw [s2]; simp [hl, h]
          · exact Or.inl (s1.trans hl)
        · cases hl : v.m.mIsLoading
          · right; right
            rw [s2]
            simp [hl, h.1, h.2]
          · exact Or.inl (s1.trans hl)
      | finished =>
        rcases h with h | h | h
        · right; left
          rw [s2]; simp [h]
        · right; left
          rw [s2]; simp [h]
        · cases hl : v.m.mIsLoading
          · right; right
            rw [s2]
            simp [hl, h.1, h.2]
          · right; left
            rw [s2]; simp [hl]
    have := ih (pre ++ [c]) (loadStep v c) hstep
    simpa [loadRun] using this

/-- C13: after any run of load notifications from the constructed object,
the object is loading, or its progress is 100, or its progress is 0 and no
`OnLoadStarted` was among them; an `OnLoadProgress` received while not loading
leaves the object and its trace as they are; and a load notification sends
`loadingChanged` once when it changed `mIsLoading` and not at all when it did
not. -/
theorem C13_load_state_invariant (calls : List LoadCall) (u x : View) (c : LoadCall)
    (aProgress aCurTotal aMaxTotal : Int) (hu : u.m.mIsLoading = false) :
    ((loadRun constructedView calls).m.mIsLoading = true
        ∨ (loadRun constructedView calls).m.mProgress = 100
        ∨ ((loadRun constructedView calls).m.mProgress = 0 ∧ LoadCall.started ∉ calls))
      ∧ OnLoadProgress u aProgress aCurTotal aMaxTotal = u
      ∧ (newCalls x (loadStep x c)).count Call.loadingChanged
          = (if (loadStep x c).m.mIsLoading = x.m.mIsLoading then 0 else 1) := by
  refine ⟨?_, ?_, (loadStep_load x c).2.2⟩
  · have h := loadRun_invariant calls [] constructedView
      (Or.inr (Or.inr ⟨rfl, by simp⟩))
    simpa using h
  · unfold OnLoadProgress
    simp [hu]

/-- A concrete run of C13: after a started and a finished load the object is
not loading, a progress report changes nothing and the progress is 100. -/
theorem C13_witness :
    (loadRun constructedView [LoadCall.started, LoadCall.finished]).m.mIsLoading = false
      ∧ OnLoadProgress (loadRun constructedView [LoadCall.started, LoadCall.finished]) 70 7 10
          = loadRun constructedView [LoadCall.started, LoadCall.finished]
      ∧ (loadRun constructedView [LoadCall.started, LoadCall.finished]).m.mProgress = 100 :=
  have h := C13_load_state_invariant [LoadCall.started, LoadCall.finished]
    (loadRun constructedView [LoadCall.started, LoadCall.finished]) constructedView
    LoadCall.started 70 7 10 (by with_unfolding_all decide)
  ⟨by with_unfolding_all decide, h.2.1, by with_unfolding_all decide⟩


end MozView
